import Mathlib

/-!
# cc-validator-api: frame codec, CRC16 and response reassembly

A shallow embedding of `cc_validator_api.go`.  Bytes and `uint16` values are
natural numbers; a byte is a number below `256`.  The serial port is a record
holding what its successive `Read` calls return, how many `Read` calls were
made, the list of byte sequences handed to `Write` and the errors its
successive `Write` calls return.  A run-time panic is the value `none`.
-/

namespace CCValidator

/-! ## Constants -/

/-- `const StartCode byte = 0x02`. -/
def StartCode : Nat := 0x02

/-- `const PeripheralAddress byte = 0x03`. -/
def PeripheralAddress : Nat := 0x03

/-- `maxReadCount := 1050` in `readResponse`. -/
def maxReadCount : Nat := 1050

/-! ## Errors -/

/-- The error values `readResponse` can return: the five `fmt.Errorf` values
of the function and an error handed back by `port.Read`. -/
inductive Error where
  | readsTriesExceeded
  | responseFormatInvalid
  | responseVerificationFailed
  | nack
  | illegalCommand
  | transport (msg : String)
  deriving DecidableEq, Repr

/-- The text of each error, as given to `fmt.Errorf`. -/
def Error.message : Error → String
  | .readsTriesExceeded => "Reads tries exceeded"
  | .responseFormatInvalid => "Response format invalid"
  | .responseVerificationFailed => "Response verification failed"
  | .nack => "Nack"
  | .illegalCommand => "Illegal command"
  | .transport msg => msg

/-! ## The serial port -/

/-- What one call `port.Read(innerBuf)` returns: the bytes `innerBuf[:n]` and
the error (`none` for `nil`). -/
structure ReadResult where
  data : List Nat
  err : Option String

/-- The serial port: `script k` is what the `k`-th `Read` call returns,
`readCount` counts the `Read` calls made so far, `written` lists the
arguments of the `Write` calls made so far, oldest first, and `writeErr k` is
the error the `k`-th `Write` call returns (`none` for `nil`). -/
structure Port where
  script : Nat → ReadResult
  readCount : Nat
  written : List (List Nat)
  writeErr : Nat → Option String

/-- One `port.Read(innerBuf)`. -/
def Port.Read (port : Port) : ReadResult × Port :=
  (port.script port.readCount, { port with readCount := port.readCount + 1 })

/-- One `port.Write(bytes)`: the error returned and the port afterwards. -/
def Port.Write (port : Port) (bytes : List Nat) : Option String × Port :=
  (port.writeErr port.written.length, { port with written := port.written ++ [bytes] })

/-! ## CRC16 -/

/-- One pass of the inner loop of `GetCRC16` (`j` loop body). -/
def crcShift (TmpCRC : Nat) : Nat :=
  if (TmpCRC &&& 0x0001) > 0 then (TmpCRC >>> 1) ^^^ 0x08408 else TmpCRC >>> 1

/-- One pass of the outer loop of `GetCRC16`: `TmpCRC := CRC ^ uint16(b)`,
eight passes of the inner loop, `CRC = TmpCRC`. -/
def crcUpdate (CRC b : Nat) : Nat :=
  crcShift^[8] (CRC ^^^ b)

/-- `GetCRC16(bufData)`. -/
def GetCRC16 (bufData : List Nat) : Nat :=
  bufData.foldl crcUpdate 0

/-! ## Outbound frames -/

/-- `binary.Write(buf, binary.LittleEndian, crc)` for a `uint16`: the bytes
`byte(crc)`, `byte(crc >> 8)`. -/
def putUint16LE (v : Nat) : List Nat :=
  [v % 256, (v >>> 8) % 256]

/-- `binary.LittleEndian.Uint16(b)`: `uint16(b[0]) | uint16(b[1])<<8`. -/
def Uint16LE (b : List Nat) : Nat :=
  b.getD 0 0 ||| (b.getD 1 0 <<< 8)

/-- The bytes `sendRequest` assembles in `buf` before it writes them. -/
def sendRequestBytes (commandCode : Nat) (bytesData : List (List Nat)) : List Nat :=
  let length := bytesData.foldl (fun length b => length + b.length) 6
  let buf := [StartCode, PeripheralAddress, length % 256, commandCode]
  let buf := bytesData.foldl (fun buf data => buf ++ data) buf
  let crc := GetCRC16 buf
  buf ++ putUint16LE crc

/-- `sendRequest(port, commandCode, bytesData...)`: it returns nothing, and
what `port.Write` returns is dropped. -/
def sendRequest (port : Port) (commandCode : Nat) (bytesData : List (List Nat)) : Port :=
  (port.Write (sendRequestBytes commandCode bytesData)).2

/-- The free-standing `Ack(port)`. -/
def Ack (port : Port) : Port :=
  sendRequest port 0x00 [[]]

/-! ## Inbound frames -/

/-- The accumulation loop of `readResponse` (the `for ; ;` statement), entered
with the current `buf`, `totalRead` and `readTriesCount`.  It ends with the
error it returns or with the buffer it leaves on `break`. -/
def readLoop (port : Port) (buf : List Nat) (totalRead readTriesCount : Nat) :
    Except Error (List Nat) × Port :=
  let readTriesCount := readTriesCount + 1
  if readTriesCount ≥ maxReadCount then
    (.error .readsTriesExceeded, port)
  else
    match port.Read with
    | (r, port) =>
      match r.err with
      | some e => (.error (.transport e), port)
      | none =>
        let totalRead := totalRead + r.data.length
        let buf := buf ++ r.data
        if totalRead < 6 then
          readLoop port buf totalRead readTriesCount
        else if buf.getD 2 0 ≠ 0x0 ∧ buf.getD 2 0 ≠ buf.length then
          readLoop port buf totalRead readTriesCount
        else
          (.ok buf, port)
termination_by maxReadCount - readTriesCount
decreasing_by all_goals (simp_wf; omega)

/-- The header check and the checksum check of `readResponse`: the buffer
without its two checksum bytes, or the error returned. -/
def validateResponse (buf : List Nat) : Except Error (List Nat) :=
  if buf.getD 0 0 ≠ StartCode ∨ buf.getD 1 0 ≠ PeripheralAddress then
    .error .responseFormatInvalid
  else
    let crc := Uint16LE (buf.drop (buf.length - 2))
    let buf := buf.take (buf.length - 2)
    let crc2 := GetCRC16 buf
    if crc ≠ crc2 then
      .error .responseVerificationFailed
    else
      .ok buf

/-- The rest of `readResponse`, on the checked buffer without its checksum:
the three short control frames, else the payload and the `Ack` write. -/
def classifyResponse (port : Port) (buf : List Nat) :
    (Option (List Nat) × Option Error) × Port :=
  if buf.length = 4 ∧ buf.getD 3 0 = 0x00 then
    ((none, none), port)
  else if buf.length = 4 ∧ buf.getD 3 0 = 0xFF then
    ((none, some .nack), port)
  else if buf.length = 4 ∧ buf.getD 3 0 = 0x30 then
    ((none, some .illegalCommand), port)
  else
    let buf := buf.drop 3
    let port := Ack port
    ((some buf, none), port)

/-- `readResponse(port)`: the returned pair (payload, error), `none` for
`nil`, and the port afterwards. -/
def readResponse (port : Port) : (Option (List Nat) × Option Error) × Port :=
  match readLoop port [] 0 0 with
  | (.error e, port) => ((none, some e), port)
  | (.ok buf, port) =>
    match validateResponse buf with
    | .error e => ((none, some e), port)
    | .ok buf => classifyResponse port buf

/-- `(*CCValidator).Reset`: the request, then `readResponse`. -/
def Reset (port : Port) : (Option (List Nat) × Option Error) × Port :=
  readResponse (sendRequest port 0x30 [[]])

/-- `(*CCValidator).GetStatus`. -/
def GetStatus (port : Port) : (Option (List Nat) × Option Error) × Port :=
  readResponse (sendRequest port 0x31 [[]])

/-- `(*CCValidator).SetSecurity`. -/
def SetSecurity (port : Port) (data : List Nat) : (Option (List Nat) × Option Error) × Port :=
  readResponse (sendRequest port 0x32 [data])

/-- `(*CCValidator).Poll`: the returned triple (status, sub-code, error) and the
port afterwards.  `none` in place of the triple stands for the run-time panic
of `response[0]` (index out of range) when `response` is empty; a `nil` slice
has length 0.  The port afterwards is given in both cases. -/
def Poll (port : Port) : Option (Nat × Nat × Option Error) × Port :=
  match readResponse (sendRequest port 0x33 [[]]) with
  | ((response, err), port) =>
    let response := response.getD []
    let param := if response.length > 1 then response.getD 1 0 else 0
    match response with
    | [] => (none, port)
    | status :: _ => (some (status, param, err), port)

/-- `(*CCValidator).Identification`. -/
def Identification (port : Port) : (Option (List Nat) × Option Error) × Port :=
  readResponse (sendRequest port 0x37 [[]])

/-- `(*CCValidator).GetBillTable`. -/
def GetBillTable (port : Port) : (Option (List Nat) × Option Error) × Port :=
  readResponse (sendRequest port 0x41 [[]])

/-- `(*CCValidator).Ack`, the method; `Ack` above is the free function. -/
def AckCommand (port : Port) : (Option (List Nat) × Option Error) × Port :=
  readResponse (sendRequest port 0x00 [[]])

/-- `(*CCValidator).Nack`. -/
def Nack (port : Port) : (Option (List Nat) × Option Error) × Port :=
  readResponse (sendRequest port 0xFF [[]])

/-- `Accepting Status = 0x15`. -/
def Accepting : Nat := 0x15

/-- `Rejecting Status = 0x1C`. -/
def Rejecting : Nat := 0x1C

/-- `DueToMagnetic byte = 0x61`. -/
def DueToMagnetic : Nat := 0x61

/-! ## The checksum as the specification words it -/

/-- Specification side (section 4.1), one of the eight iterations: "if the low
bit is set, shift right one bit and XOR the result with the fixed polynomial
mask `0x8408`; otherwise just shift right one bit". -/
def specShift (acc : Nat) : Nat :=
  if acc % 2 = 1 then (acc / 2) ^^^ 0x8408 else acc / 2

/-- Specification side (section 4.1), one input byte: "XOR it into the low
byte of the accumulator, then perform 8 iterations"; the high byte of the
accumulator is `acc / 256` and its low byte `acc % 256`. -/
def specUpdate (acc b : Nat) : Nat :=
  specShift^[8] ((acc / 256) * 256 + ((acc % 256) ^^^ b))

/-! ## Predicates and sample ports used in the statements -/

/-- Every element of the list is a byte. -/
def IsBytes (bs : List Nat) : Prop := ∀ b ∈ bs, b < 256

instance (bs : List Nat) : Decidable (IsBytes bs) := by
  unfold IsBytes; infer_instance

/-- The test under which the loop of `readResponse` reaches `break`. -/
def frameComplete (buf : List Nat) : Prop :=
  6 ≤ buf.length ∧ (buf.getD 2 0 = 0 ∨ buf.getD 2 0 = buf.length)

instance (buf : List Nat) : Decidable (frameComplete buf) := by
  unfold frameComplete; infer_instance

/-- The bytes delivered by the next `k` reads of the port, in order. -/
def received (port : Port) (k : Nat) : List Nat :=
  ((List.range k).map (fun i => (port.script (port.readCount + i)).data)).flatten

/-- A port on which nothing ever arrives, nothing has happened yet and every
write succeeds. -/
def silentPort : Port := ⟨fun _ => ⟨[], none⟩, 0, [], fun _ => none⟩

/-- A port on which nothing has happened yet and whose first read delivers
`frame` whole; every later read delivers nothing. -/
def portDelivering (frame : List Nat) : Port :=
  ⟨fun k => if k = 0 then ⟨frame, none⟩ else ⟨[], none⟩, 0, [], fun _ => none⟩

/-- The checksum test of `readResponse`: the last two bytes, read as a
little-endian `uint16`, are the `GetCRC16` of the bytes before them. -/
def crcValid (buf : List Nat) : Prop :=
  Uint16LE (buf.drop (buf.length - 2)) = GetCRC16 (buf.take (buf.length - 2))

instance (buf : List Nat) : Decidable (crcValid buf) := by
  unfold crcValid; infer_instance

/-- A port on which nothing has happened yet and whose first four reads
deliver the frame `02 03 07 1C 61 FE F1` in the pieces `02 03`, nothing,
`07 1C 61 FE` and `F1`. -/
def chunkedPort : Port :=
  ⟨fun k => ⟨[[0x02, 0x03], [], [0x07, 0x1C, 0x61, 0xFE], [0xF1]].getD k [], none⟩, 0, [],
    fun _ => none⟩

/-- A port on which nothing has happened yet, whose first read delivers
`frame` whole and on which every write fails with the error `werr`. -/
def portFailingWrites (frame : List Nat) (werr : String) : Port :=
  ⟨fun k => if k = 0 then ⟨frame, none⟩ else ⟨[], none⟩, 0, [], fun _ => some werr⟩

/-- A port on which nothing has happened yet, whose first two reads deliver the
single byte `02` each and whose third read fails with the error `rerr`. -/
def portFailingThirdRead (rerr : String) : Port :=
  ⟨fun k => if k = 2 then ⟨[], some rerr⟩ else ⟨[0x02], none⟩, 0, [], fun _ => none⟩

/-- The same port with `w` as the errors its `Write` calls return. -/
def Port.withWriteErr (port : Port) (w : Nat → Option String) : Port :=
  { port with writeErr := w }

/-! ## Facts about the CRC -/

theorem crcShift_eq (x : Nat) :
    crcShift x = if x % 2 = 1 then (x / 2) ^^^ 0x8408 else x / 2 := by
  unfold crcShift
  have h1 : x >>> 1 = x / 2 := by simp [Nat.shiftRight_eq_div_pow]
  rw [Nat.and_one_is_mod, h1]
  rcases Nat.mod_two_eq_zero_or_one x with h | h <;> simp [h]

theorem xor_poly_ge {q : Nat} (hq : q < 32768) : 32768 ≤ q ^^^ 0x8408 := by
  have hb : (q ^^^ 0x8408).testBit 15 = true := by
    rw [Nat.testBit_xor, Nat.testBit_lt_two_pow (by simpa using hq)]
    decide
  simpa using Nat.testBit_implies_ge hb

theorem crcShift_lt {x : Nat} (hx : x < 65536) : crcShift x < 65536 := by
  rw [crcShift_eq]
  have hq : x / 2 < 2 ^ 16 := by norm_num; omega
  split
  · simpa using Nat.xor_lt_two_pow hq (by norm_num : 0x8408 < 2 ^ 16)
  · simpa using hq

theorem crcShift_inj {x y : Nat} (hx : x < 65536) (hy : y < 65536)
    (h : crcShift x = crcShift y) : x = y := by
  rw [crcShift_eq, crcShift_eq] at h
  have hxq : x / 2 < 32768 := by omega
  have hyq : y / 2 < 32768 := by omega
  have gx := xor_poly_ge hxq
  have gy := xor_poly_ge hyq
  by_cases px : x % 2 = 1 <;> by_cases py : y % 2 = 1 <;> simp only [px, py, if_true, if_false] at h
  · have := Nat.xor_left_injective h
    omega
  · omega
  · omega
  · omega

theorem crcShift_iterate_lt (n : Nat) {x : Nat} (hx : x < 65536) : crcShift^[n] x < 65536 := by
  induction n generalizing x with
  | zero => simpa using hx
  | succ n ih => rw [Function.iterate_succ_apply]; exact ih (crcShift_lt hx)

theorem crcShift_iterate_inj (n : Nat) {x y : Nat} (hx : x < 65536) (hy : y < 65536)
    (h : crcShift^[n] x = crcShift^[n] y) : x = y := by
  induction n generalizing x y with
  | zero => simpa using h
  | succ n ih =>
    rw [Function.iterate_succ_apply, Function.iterate_succ_apply] at h
    exact crcShift_inj hx hy (ih (crcShift_lt hx) (crcShift_lt hy) h)

theorem xor_byte_lt {crc b : Nat} (hc : crc < 65536) (hb : b < 256) : crc ^^^ b < 65536 := by
  have := Nat.xor_lt_two_pow (n := 16) (by simpa using hc) (by norm_num; omega : b < 2 ^ 16)
  simpa using this

theorem crcUpdate_lt {crc b : Nat} (hc : crc < 65536) (hb : b < 256) :
    crcUpdate crc b < 65536 :=
  crcShift_iterate_lt 8 (xor_byte_lt hc hb)

theorem crcUpdate_inj_left {x y b : Nat} (hx : x < 65536) (hy : y < 65536) (hb : b < 256)
    (h : crcUpdate x b = crcUpdate y b) : x = y :=
  Nat.xor_left_injective (crcShift_iterate_inj 8 (xor_byte_lt hx hb) (xor_byte_lt hy hb) h)

theorem crcUpdate_inj_right {x a b : Nat} (hx : x < 65536) (ha : a < 256) (hb : b < 256)
    (h : crcUpdate x a = crcUpdate x b) : a = b :=
  Nat.xor_right_injective (crcShift_iterate_inj 8 (xor_byte_lt hx ha) (xor_byte_lt hx hb) h)

theorem foldl_crcUpdate_lt (bs : List Nat) (hbs : IsBytes bs) {x : Nat} (hx : x < 65536) :
    bs.foldl crcUpdate x < 65536 := by
  induction bs generalizing x with
  | nil => simpa using hx
  | cons b bs ih =>
    rw [List.foldl_cons]
    exact ih (fun c hc => hbs c (List.mem_cons_of_mem _ hc))
      (crcUpdate_lt hx (hbs b (List.mem_cons_self _ _)))

theorem foldl_crcUpdate_inj (bs : List Nat) (hbs : IsBytes bs) {x y : Nat}
    (hx : x < 65536) (hy : y < 65536)
    (h : bs.foldl crcUpdate x = bs.foldl crcUpdate y) : x = y := by
  induction bs generalizing x y with
  | nil => simpa using h
  | cons b bs ih =>
    rw [List.foldl_cons, List.foldl_cons] at h
    have hb := hbs b (List.mem_cons_self _ _)
    exact crcUpdate_inj_left hx hy hb
      (ih (fun c hc => hbs c (List.mem_cons_of_mem _ hc)) (crcUpdate_lt hx hb) (crcUpdate_lt hy hb) h)

theorem GetCRC16_lt (bs : List Nat) (hbs : IsBytes bs) : GetCRC16 bs < 65536 :=
  foldl_crcUpdate_lt bs hbs (by norm_num)

/-- Two inputs that differ in exactly one byte have different checksums. -/
theorem GetCRC16_ne_of_byte_ne (p s : List Nat) (a b : Nat) (hp : IsBytes p) (hs : IsBytes s)
    (ha : a < 256) (hb : b < 256) (hab : a ≠ b) :
    GetCRC16 (p ++ a :: s) ≠ GetCRC16 (p ++ b :: s) := by
  intro h
  unfold GetCRC16 at h
  rw [List.foldl_append, List.foldl_append, List.foldl_cons, List.foldl_cons] at h
  have hx := foldl_crcUpdate_lt p hp (by norm_num : 0 < 65536)
  exact hab (crcUpdate_inj_right hx ha hb
    (foldl_crcUpdate_inj s hs (crcUpdate_lt hx ha) (crcUpdate_lt hx hb) h))

/-! ## Facts about frames -/

theorem Uint16LE_pair {lo : Nat} (hi : Nat) (hlo : lo < 256) :
    Uint16LE [lo, hi] = lo + 256 * hi := by
  have h := Nat.mul_add_lt_is_or (i := 8) (by simpa using hlo : lo < 2 ^ 8) hi
  simp only [Uint16LE, List.getD_cons_zero, List.getD_cons_succ, Nat.shiftLeft_eq]
  rw [Nat.or_comm, Nat.mul_comm hi, ← h]
  norm_num
  omega

theorem Uint16LE_putUint16LE {v : Nat} (hv : v < 65536) : Uint16LE (putUint16LE v) = v := by
  unfold putUint16LE
  rw [Uint16LE_pair _ (Nat.mod_lt _ (by norm_num)), Nat.shiftRight_eq_div_pow]
  norm_num
  omega

theorem putUint16LE_eq {v : Nat} (hv : v < 65536) :
    putUint16LE v = [v &&& 0xFF, v >>> 8] := by
  have h1 : v &&& 0xFF = v % 256 := Nat.and_pow_two_sub_one_eq_mod v 8
  have h2 : v >>> 8 = v / 256 := by simp [Nat.shiftRight_eq_div_pow]
  unfold putUint16LE
  rw [h1, h2]
  have : v / 256 % 256 = v / 256 := Nat.mod_eq_of_lt (by omega)
  rw [this]

theorem sendRequestBytes_single (c : Nat) (p : List Nat) :
    sendRequestBytes c [p] =
      ([0x02, 0x03, (6 + p.length) % 256, c] ++ p) ++
        putUint16LE (GetCRC16 ([0x02, 0x03, (6 + p.length) % 256, c] ++ p)) := by
  simp [sendRequestBytes, StartCode, PeripheralAddress]

theorem validateResponse_append (body : List Nat) (lo hi : Nat)
    (h0 : body.getD 0 0 = 0x02) (h1 : body.getD 1 0 = 0x03) (hlen : 2 ≤ body.length) :
    validateResponse (body ++ [lo, hi]) =
      if Uint16LE [lo, hi] ≠ GetCRC16 body then .error .responseVerificationFailed
      else .ok body := by
  have g0 : (body ++ [lo, hi]).getD 0 0 = 0x02 := by
    rw [List.getD_append _ _ _ _ (by omega)]; exact h0
  have g1 : (body ++ [lo, hi]).getD 1 0 = 0x03 := by
    rw [List.getD_append _ _ _ _ (by omega)]; exact h1
  have hd : (body ++ [lo, hi]).drop ((body ++ [lo, hi]).length - 2) = [lo, hi] := by
    simp
  have ht : (body ++ [lo, hi]).take ((body ++ [lo, hi]).length - 2) = body := by
    simp
  unfold validateResponse
  rw [g0, g1, hd, ht]
  simp [StartCode, PeripheralAddress]

/-! ## Facts about the accumulation loop -/

theorem readLoop_exceeded (port : Port) (buf : List Nat) (totalRead rtc : Nat)
    (h : maxReadCount ≤ rtc + 1) :
    readLoop port buf totalRead rtc = (.error .readsTriesExceeded, port) := by
  rw [readLoop]
  simp [h]

theorem readLoop_read_error (port : Port) (buf : List Nat) (totalRead rtc : Nat) (e : String)
    (h : rtc + 1 < maxReadCount) (he : (port.script port.readCount).err = some e) :
    readLoop port buf totalRead rtc = (.error (.transport e), port.Read.2) := by
  rw [readLoop]
  simp [Nat.not_le.mpr h, Port.Read, he]

theorem readLoop_break (port : Port) (buf : List Nat) (rtc : Nat)
    (h : rtc + 1 < maxReadCount) (he : (port.script port.readCount).err = none)
    (hc : frameComplete (buf ++ (port.script port.readCount).data)) :
    readLoop port buf buf.length rtc =
      (.ok (buf ++ (port.script port.readCount).data), port.Read.2) := by
  rw [readLoop]
  obtain ⟨h6, h2⟩ := hc
  rw [List.length_append] at h6
  simp only [Port.Read, he, ge_iff_le, Nat.not_le.mpr h, if_false, Nat.not_lt.mpr h6]
  rw [if_neg]
  rintro ⟨a, b⟩
  rcases h2 with h2 | h2
  · exact a h2
  · exact b h2

theorem readLoop_continue (port : Port) (buf : List Nat) (rtc : Nat)
    (h : rtc + 1 < maxReadCount) (he : (port.script port.readCount).err = none)
    (hc : ¬ frameComplete (buf ++ (port.script port.readCount).data)) :
    readLoop port buf buf.length rtc =
      readLoop port.Read.2 (buf ++ (port.script port.readCount).data)
        (buf ++ (port.script port.readCount).data).length (rtc + 1) := by
  rw [readLoop]
  simp only [Port.Read, he, ge_iff_le, Nat.not_le.mpr h, if_false]
  unfold frameComplete at hc
  rw [List.length_append] at hc ⊢
  by_cases h6 : buf.length + (port.script port.readCount).data.length < 6
  · simp [h6]
  · rw [if_neg h6, if_pos]
    have : 6 ≤ buf.length + (port.script port.readCount).data.length := by omega
    simp only [this, true_and, not_or] at hc
    simpa using hc

theorem received_zero (port : Port) : received port 0 = [] := by
  simp [received]

theorem received_succ (port : Port) (k : Nat) :
    received port (k + 1) = (port.script port.readCount).data ++ received port.Read.2 k := by
  simp only [received, List.range_succ_eq_map, List.map_cons, List.flatten_cons, List.map_map,
    Port.Read, Nat.add_zero]
  congr 2
  apply List.map_congr_left
  intro i _
  simp only [Function.comp_apply]
  congr 2
  omega

theorem readLoop_written (port : Port) (buf : List Nat) (totalRead rtc : Nat) :
    (readLoop port buf totalRead rtc).2.written = port.written := by
  generalize hn : maxReadCount - rtc = n
  induction n generalizing port buf totalRead rtc with
  | zero => rw [readLoop_exceeded _ _ _ _ (by omega)]
  | succ n ih =>
    rw [readLoop]
    split
    · rfl
    · simp only [Port.Read]
      split
      · rfl
      · split
        · rw [ih _ _ _ _ (by omega)]
        · split
          · rw [ih _ _ _ _ (by omega)]
          · rfl

theorem readLoop_script (port : Port) (buf : List Nat) (totalRead rtc : Nat) :
    (readLoop port buf totalRead rtc).2.script = port.script := by
  generalize hn : maxReadCount - rtc = n
  induction n generalizing port buf totalRead rtc with
  | zero => rw [readLoop_exceeded _ _ _ _ (by omega)]
  | succ n ih =>
    rw [readLoop]
    split
    · rfl
    · simp only [Port.Read]
      split
      · rfl
      · split
        · rw [ih _ _ _ _ (by omega)]
        · split
          · rw [ih _ _ _ _ (by omega)]
          · rfl

/-- When the loop leaves a buffer, the buffer passes the completion test; in
particular it has six bytes or more, so every index `readResponse` uses on it
(`buf[0]`, `buf[1]`, `buf[2]`, `buf[3]`, `buf[len(buf)-2:]`, `buf[3:]`) is in
range. -/
theorem readLoop_ok_complete (port : Port) (buf : List Nat) (rtc : Nat) (out : List Nat)
    (port1 : Port) (h : readLoop port buf buf.length rtc = (.ok out, port1)) :
    frameComplete out := by
  generalize hn : maxReadCount - 1 - rtc = n
  induction n generalizing port buf rtc with
  | zero => rw [readLoop_exceeded _ _ _ _ (by omega)] at h; simp at h
  | succ n ih =>
    have hr : rtc + 1 < maxReadCount := by omega
    cases he : (port.script port.readCount).err with
    | some e => rw [readLoop_read_error _ _ _ _ e hr he] at h; simp at h
    | none =>
      by_cases hc : frameComplete (buf ++ (port.script port.readCount).data)
      · rw [readLoop_break _ _ _ hr he hc] at h
        simp only [Prod.mk.injEq, Except.ok.injEq] at h
        rw [← h.1]; exact hc
      · rw [readLoop_continue _ _ _ hr he hc] at h
        exact ih _ _ _ h (by omega)

/-- A port whose reads succeed without ever completing a frame: the loop uses
up its remaining `n` tries and gives up. -/
theorem readLoop_never_complete (n : Nat) (port : Port) (buf : List Nat) (rtc : Nat)
    (hrtc : rtc + n + 1 = maxReadCount)
    (h : ∀ k, k < n → (port.script (port.readCount + k)).err = none ∧
      ¬ frameComplete (buf ++ received port (k + 1))) :
    readLoop port buf buf.length rtc =
      (.error .readsTriesExceeded, { port with readCount := port.readCount + n }) := by
  induction n generalizing port buf rtc with
  | zero => rw [readLoop_exceeded _ _ _ _ (by omega)]; rfl
  | succ n ih =>
    have h0 := h 0 (by omega)
    rw [received_succ, received_zero, List.append_nil, Nat.add_zero] at h0
    rw [readLoop_continue _ _ _ (by omega) h0.1 h0.2, ih _ _ _ (by omega)]
    · simp only [Port.Read, Prod.mk.injEq, true_and]
      congr 1
      omega
    · intro k hk
      have hk1 := h (k + 1) (by omega)
      rw [received_succ, ← List.append_assoc] at hk1
      refine ⟨?_, hk1.2⟩
      have : port.Read.2.readCount + k = port.readCount + (k + 1) := by
        simp only [Port.Read]; omega
      rw [this]
      exact hk1.1

/-- Reassembly: when the next `k` reads succeed and complete the frame `f`
whose length byte is its length, the loop leaves exactly `f`, having made at
most `k` reads and no write. -/
theorem readLoop_reassemble (f : List Nat) (hf6 : 6 ≤ f.length) (hf2 : f.getD 2 0 = f.length)
    (k : Nat) (port : Port) (buf : List Nat) (rtc : Nat)
    (hrtc : rtc + k < maxReadCount)
    (herr : ∀ i, i < k → (port.script (port.readCount + i)).err = none)
    (hcat : buf ++ received port k = f) (hlt : buf.length < f.length) :
    ∃ j, j < k ∧ readLoop port buf buf.length rtc =
      (.ok f, { port with readCount := port.readCount + j + 1 }) := by
  induction k generalizing port buf rtc with
  | zero =>
    rw [received_zero, List.append_nil] at hcat
    rw [hcat] at hlt
    omega
  | succ k ih =>
    have he := herr 0 (by omega)
    rw [Nat.add_zero] at he
    rw [received_succ, ← List.append_assoc] at hcat
    have hlen : (buf ++ (port.script port.readCount).data).length +
        (received port.Read.2 k).length = f.length := by
      have hl := congrArg List.length hcat
      rw [List.length_append] at hl
      exact hl
    by_cases heq : (buf ++ (port.script port.readCount).data).length = f.length
    · have hnil : received port.Read.2 k = [] := List.length_eq_zero.mp (by omega)
      rw [hnil, List.append_nil] at hcat
      refine ⟨0, by omega, ?_⟩
      rw [readLoop_break _ _ _ (by omega) he (by rw [hcat]; exact ⟨hf6, Or.inr hf2⟩), hcat]
      rfl
    · have hnc : ¬ frameComplete (buf ++ (port.script port.readCount).data) := by
        rintro ⟨h6, h2⟩
        have hget : (buf ++ (port.script port.readCount).data).getD 2 0 = f.getD 2 0 := by
          have hg := List.getD_append (buf ++ (port.script port.readCount).data)
            (received port.Read.2 k) 0 2 (by omega)
          rw [hcat] at hg
          exact hg.symm
        rw [hget, hf2] at h2
        omega
      obtain ⟨j, hj, hres⟩ := ih port.Read.2 (buf ++ (port.script port.readCount).data)
        (rtc + 1) (by omega)
        (fun i hi => by
          have := herr (i + 1) (by omega)
          have e : port.Read.2.readCount + i = port.readCount + (i + 1) := by
            simp only [Port.Read]; omega
          rw [e]; exact this)
        hcat (by omega)
      refine ⟨j + 1, by omega, ?_⟩
      rw [readLoop_continue _ _ _ (by omega) he hnc, hres]
      simp only [Port.Read, Prod.mk.injEq, true_and]
      congr 1
      omega

/-- A whole frame arriving in the first read is what the loop leaves. -/
theorem readLoop_single_read (port : Port) (buf : List Nat)
    (hs : port.script port.readCount = ⟨buf, none⟩) (hc : frameComplete buf) :
    readLoop port [] 0 0 = (.ok buf, port.Read.2) := by
  have he : (port.script port.readCount).err = none := by rw [hs]
  have hd : [] ++ (port.script port.readCount).data = buf := by rw [hs]; rfl
  have := readLoop_break port [] 0 (by decide) he (by rw [hd]; exact hc)
  rw [hd] at this
  exact this

/-! ## Facts about `readResponse` -/

theorem readResponse_of_loop (port port1 : Port) (buf : List Nat)
    (h : readLoop port [] 0 0 = (.ok buf, port1)) :
    readResponse port =
      match validateResponse buf with
      | .error e => ((none, some e), port1)
      | .ok b => classifyResponse port1 b := by
  unfold readResponse
  rw [h]

theorem readResponse_of_loop_error (port port1 : Port) (e : Error)
    (h : readLoop port [] 0 0 = (.error e, port1)) :
    readResponse port = ((none, some e), port1) := by
  unfold readResponse
  rw [h]

set_option maxRecDepth 100000 in
theorem ack_bytes : sendRequestBytes 0x00 [[]] = [0x02, 0x03, 0x06, 0x00, 0xC2, 0x82] := by
  decide

set_option maxRecDepth 100000 in
theorem reset_bytes : sendRequestBytes 0x30 [[]] = [0x02, 0x03, 0x06, 0x30, 0x41, 0xB3] := by
  decide

set_option maxRecDepth 100000 in
theorem reset_crc : GetCRC16 [0x02, 0x03, 0x06, 0x30] = 0xB341 := by
  decide

theorem Ack_written (port : Port) :
    (Ack port).written = port.written ++ [[0x02, 0x03, 0x06, 0x00, 0xC2, 0x82]] := by
  simp only [Ack, sendRequest, Port.Write, ack_bytes]

theorem classifyResponse_written (port : Port) (buf : List Nat) :
    (classifyResponse port buf).2.written =
      if (classifyResponse port buf).1.1.isSome then
        port.written ++ [[0x02, 0x03, 0x06, 0x00, 0xC2, 0x82]]
      else port.written := by
  unfold classifyResponse
  split
  · rfl
  · split
    · rfl
    · split
      · rfl
      · simp [Ack_written]

theorem validateResponse_ok (buf : List Nat) (h0 : buf.getD 0 0 = 0x02)
    (h1 : buf.getD 1 0 = 0x03) (hcrc : crcValid buf) :
    validateResponse buf = .ok (buf.take (buf.length - 2)) := by
  unfold crcValid at hcrc
  unfold validateResponse
  rw [h0, h1, hcrc]
  simp [StartCode, PeripheralAddress]

theorem validateResponse_bad_header (buf : List Nat)
    (h : buf.getD 0 0 ≠ 0x02 ∨ buf.getD 1 0 ≠ 0x03) :
    validateResponse buf = .error .responseFormatInvalid := by
  unfold validateResponse
  rw [if_pos]
  exact h

theorem getD_take_of_lt (l : List Nat) (i n : Nat) (h : i < n) :
    (l.take n).getD i 0 = l.getD i 0 := by
  simp [List.getD_eq_getElem?_getD, List.getElem?_take, h]

theorem received_silentPort (k : Nat) : received silentPort k = [] := by
  induction k with
  | zero => exact received_zero _
  | succ k ih =>
    rw [received, List.range_succ, List.map_append, List.flatten_append]
    rw [received] at ih
    rw [ih]
    rfl

theorem received_portDelivering (f : List Nat) : received (portDelivering f) 1 = f := by
  simp [received, portDelivering, List.range_succ]

/-- The result of `readResponse` once the next `k` reads have delivered a
well-formed data frame `f`. -/
theorem readResponse_of_delivery (port : Port) (f : List Nat) (k : Nat)
    (hk : k < maxReadCount)
    (herr : ∀ i, i < k → (port.script (port.readCount + i)).err = none)
    (hcat : received port k = f)
    (h0 : f.getD 0 0 = 0x02) (h1 : f.getD 1 0 = 0x03)
    (h2 : f.getD 2 0 = f.length) (h6 : 6 ≤ f.length) (hcrc : crcValid f)
    (hctl : ¬ (f.length = 6 ∧ (f.getD 3 0 = 0x00 ∨ f.getD 3 0 = 0xFF ∨ f.getD 3 0 = 0x30))) :
    (readResponse port).1 = (some ((f.take (f.length - 2)).drop 3), none) := by
  obtain ⟨j, _, hloop⟩ := readLoop_reassemble f h6 h2 k port [] 0 (by omega) herr
    (by rw [List.nil_append]; exact hcat) (by simp only [List.length_nil]; omega)
  rw [readResponse_of_loop _ _ _ hloop, validateResponse_ok f h0 h1 hcrc]
  simp only
  have hl : (f.take (f.length - 2)).length = f.length - 2 := by
    rw [List.length_take]; omega
  have h3 : (f.take (f.length - 2)).getD 3 0 = f.getD 3 0 :=
    getD_take_of_lt f 3 _ (by omega)
  unfold classifyResponse
  rw [hl, h3]
  have e4 : f.length - 2 = 4 → f.length = 6 := by omega
  rw [if_neg (fun h => hctl ⟨e4 h.1, Or.inl h.2⟩),
    if_neg (fun h => hctl ⟨e4 h.1, Or.inr (Or.inl h.2)⟩),
    if_neg (fun h => hctl ⟨e4 h.1, Or.inr (Or.inr h.2)⟩)]

set_option maxRecDepth 100000 in
theorem crcValid_samples :
    crcValid [0x02, 0x03, 0x07, 0x1C, 0x61, 0xFE, 0xF1] ∧
      crcValid [0x02, 0x03, 0x06, 0x00, 0xC2, 0x82] ∧
      crcValid [0x02, 0x03, 0x06, 0xFF, 0xBA, 0x8D] ∧
      crcValid [0x02, 0x03, 0x06, 0x30, 0x41, 0xB3] ∧
      crcValid [0x09, 0x03, 0x06, 0x14, 0x72, 0x14] := by
  decide

/-- Replacing one byte of the checksummed bytes by a different byte changes
the checksum, whatever accumulator the bytes are folded from. -/
theorem foldl_crcUpdate_set_ne (l : List Nat) (hl : IsBytes l) (i v x : Nat)
    (hi : i < l.length) (hv : v < 256) (hne : v ≠ l.getD i 0) (hx : x < 65536) :
    (l.set i v).foldl crcUpdate x ≠ l.foldl crcUpdate x := by
  induction l generalizing i x with
  | nil => simp at hi
  | cons a l ih =>
    have ha : a < 256 := hl a (List.mem_cons_self _ _)
    have hl1 : IsBytes l := fun c hc => hl c (List.mem_cons_of_mem _ hc)
    cases i with
    | zero =>
      rw [List.set_cons_zero, List.foldl_cons, List.foldl_cons]
      intro h
      have h1 := foldl_crcUpdate_inj l hl1 (crcUpdate_lt hx hv) (crcUpdate_lt hx ha) h
      exact hne (crcUpdate_inj_right hx hv ha h1)
    | succ j =>
      rw [List.set_cons_succ, List.foldl_cons, List.foldl_cons]
      exact ih hl1 j (crcUpdate x a) (by simpa using hi) (by simpa using hne)
        (crcUpdate_lt hx ha)

theorem GetCRC16_set_ne (l : List Nat) (hl : IsBytes l) (i v : Nat)
    (hi : i < l.length) (hv : v < 256) (hne : v ≠ l.getD i 0) :
    GetCRC16 (l.set i v) ≠ GetCRC16 l :=
  foldl_crcUpdate_set_ne l hl i v 0 hi hv hne (by norm_num)

theorem isBytes_frame_body (c : Nat) (p : List Nat) (hc : c < 256) (hp : IsBytes p)
    (hlen : 6 + p.length ≤ 255) : IsBytes ([0x02, 0x03, 6 + p.length, c] ++ p) := by
  intro b hb
  simp only [List.cons_append, List.nil_append, List.mem_cons] at hb
  rcases hb with h | h | h | h | h
  · omega
  · omega
  · omega
  · omega
  · exact hp b h

/-! ## Further facts about the CRC -/

theorem crcShift_eq_specShift : crcShift = specShift := by
  funext x
  rw [crcShift_eq]
  rfl

/-- XOR with a byte only touches the low byte. -/
theorem xor_low_byte (q : Nat) {r b : Nat} (hr : r < 2 ^ 8) (hb : b < 2 ^ 8) :
    (2 ^ 8 * q + r) ^^^ b = 2 ^ 8 * q + (r ^^^ b) := by
  apply Nat.eq_of_testBit_eq
  intro j
  rw [Nat.testBit_xor, Nat.testBit_mul_pow_two_add q hr,
    Nat.testBit_mul_pow_two_add q (Nat.xor_lt_two_pow hr hb)]
  by_cases hj : j < 8
  · rw [if_pos hj, if_pos hj, Nat.testBit_xor]
  · rw [if_neg hj, if_neg hj]
    have hbj : b < 2 ^ j :=
      Nat.lt_of_lt_of_le hb (Nat.pow_le_pow_right (by norm_num) (by omega))
    rw [Nat.testBit_lt_two_pow hbj]
    simp

theorem xor_byte_eq (acc : Nat) {b : Nat} (hb : b < 256) :
    acc ^^^ b = (acc / 256) * 256 + ((acc % 256) ^^^ b) := by
  have h := xor_low_byte (acc / 256) (r := acc % 256) (b := b)
    (Nat.mod_lt _ (by norm_num)) (by simpa using hb)
  have hd : 2 ^ 8 * (acc / 256) + acc % 256 = acc := by
    have := Nat.div_add_mod acc 256
    norm_num
    omega
  rw [hd] at h
  rw [h]
  norm_num
  omega

theorem crcShift_double (m : Nat) : crcShift (2 * m) = m := by
  rw [crcShift_eq]
  have h1 : 2 * m % 2 = 0 := by omega
  have h2 : 2 * m / 2 = m := by omega
  rw [h1, h2]
  simp

theorem crcShift_iterate_256 (q : Nat) : crcShift^[8] (256 * q) = q := by
  have h : 256 * q = 2 * (2 * (2 * (2 * (2 * (2 * (2 * (2 * q))))))) := by omega
  rw [h]
  simp only [Function.iterate_succ, Function.iterate_zero, Function.comp_apply, id_eq,
    crcShift_double]

theorem crcUpdate_low_byte (c : Nat) : crcUpdate c (c % 256) = c / 256 := by
  unfold crcUpdate
  rw [xor_byte_eq c (Nat.mod_lt _ (by norm_num)), Nat.xor_self, Nat.add_zero, Nat.mul_comm]
  exact crcShift_iterate_256 _

theorem crcUpdate_self (c : Nat) : crcUpdate c c = 0 := by
  unfold crcUpdate
  rw [Nat.xor_self]
  exact crcShift_iterate_256 0

theorem take_append_pair (body : List Nat) (lo hi : Nat) :
    (body ++ [lo, hi]).take ((body ++ [lo, hi]).length - 2) = body := by
  simp

theorem GetCRC16_append (xs ys : List Nat) :
    GetCRC16 (xs ++ ys) = ys.foldl crcUpdate (GetCRC16 xs) := by
  unfold GetCRC16
  rw [List.foldl_append]

/-- Appending the checksum, low byte first, brings the accumulator to zero. -/
theorem GetCRC16_residue (d : List Nat) :
    GetCRC16 (d ++ [GetCRC16 d % 256, GetCRC16 d / 256]) = 0 := by
  rw [GetCRC16_append, List.foldl_cons, List.foldl_cons, List.foldl_nil,
    crcUpdate_low_byte, crcUpdate_self]

/-! ## Further facts about `readResponse` and the commands -/

theorem validateResponse_ok_eq (buf b : List Nat) (h : validateResponse buf = .ok b) :
    b = buf.take (buf.length - 2) := by
  unfold validateResponse at h
  split at h
  · cases h
  · simp only at h
    split at h
    · cases h
    · cases h
      rfl

theorem classifyResponse_data (port : Port) (buf : List Nat)
    (h : ¬ (buf.length = 4 ∧
      (buf.getD 3 0 = 0x00 ∨ buf.getD 3 0 = 0xFF ∨ buf.getD 3 0 = 0x30))) :
    classifyResponse port buf = ((some (buf.drop 3), none), Ack port) := by
  unfold classifyResponse
  rw [if_neg (fun c => h ⟨c.1, Or.inl c.2⟩), if_neg (fun c => h ⟨c.1, Or.inr (Or.inl c.2)⟩),
    if_neg (fun c => h ⟨c.1, Or.inr (Or.inr c.2)⟩)]

theorem classifyResponse_payload (port : Port) (buf p : List Nat)
    (h : (classifyResponse port buf).1.1 = some p) :
    p = buf.drop 3 ∧ (classifyResponse port buf).1.2 = none := by
  unfold classifyResponse at h ⊢
  split
  · rw [if_pos (by assumption)] at h; cases h
  · rw [if_neg (by assumption)] at h
    split
    · rw [if_pos (by assumption)] at h; cases h
    · rw [if_neg (by assumption)] at h
      split
      · rw [if_pos (by assumption)] at h; cases h
      · rw [if_neg (by assumption)] at h
        simp only [Option.some.injEq] at h
        exact ⟨h.symm, rfl⟩

/-- A payload returned by `readResponse` has at least one byte and comes with
the `nil` error. -/
theorem readResponse_payload (port : Port) (p : List Nat)
    (h : (readResponse port).1.1 = some p) : p ≠ [] ∧ (readResponse port).1.2 = none := by
  rcases hl : readLoop port [] 0 0 with ⟨r, port1⟩
  cases r with
  | error e =>
    rw [readResponse_of_loop_error _ _ _ hl] at h
    cases h
  | ok buf =>
    have hc := readLoop_ok_complete port [] 0 buf port1 hl
    rw [readResponse_of_loop _ _ _ hl] at h ⊢
    cases hv : validateResponse buf with
    | error e => rw [hv] at h; cases h
    | ok b =>
      rw [hv] at h
      simp only at h ⊢
      obtain ⟨hp, he⟩ := classifyResponse_payload _ _ _ h
      refine ⟨?_, he⟩
      rw [hp, validateResponse_ok_eq _ _ hv]
      intro hnil
      have hlen := congrArg List.length hnil
      rw [List.length_drop, List.length_take] at hlen
      have := hc.1
      simp only [List.length_nil] at hlen
      omega

theorem Poll_of_payload (port : Port) (p : List Nat)
    (h : (readResponse (sendRequest port 0x33 [[]])).1.1 = some p) :
    Poll port = (some (p.getD 0 0, (if 1 < p.length then p.getD 1 0 else 0), none),
      (readResponse (sendRequest port 0x33 [[]])).2) := by
  obtain ⟨hne, herr⟩ := readResponse_payload _ _ h
  unfold Poll
  rcases hr : readResponse (sendRequest port 0x33 [[]]) with ⟨⟨response, err⟩, port1⟩
  rw [hr] at h herr
  simp only at h herr
  subst h herr
  cases p with
  | nil => exact absurd rfl hne
  | cons s rest => rfl

/-- Whatever `readResponse` returns, and also when `Poll` panics, the port after
`Poll` is the port after the request write and `readResponse`. -/
theorem Poll_port (port : Port) :
    (Poll port).2 = (readResponse (sendRequest port 0x33 [[]])).2 := by
  unfold Poll
  rcases readResponse (sendRequest port 0x33 [[]]) with ⟨⟨response, err⟩, port1⟩
  simp only
  cases response.getD [] with
  | nil => rfl
  | cons s rest => rfl

theorem Poll_of_no_payload (port : Port)
    (h : (readResponse (sendRequest port 0x33 [[]])).1.1 = none) :
    Poll port = (none, (readResponse (sendRequest port 0x33 [[]])).2) := by
  unfold Poll
  rcases hr : readResponse (sendRequest port 0x33 [[]]) with ⟨⟨response, err⟩, port1⟩
  rw [hr] at h
  simp only at h
  subst h
  rfl

theorem readResponse_data_of_loop (port port1 : Port) (buf : List Nat)
    (hloop : readLoop port [] 0 0 = (.ok buf, port1))
    (h0 : buf.getD 0 0 = 0x02) (h1 : buf.getD 1 0 = 0x03) (hcrc : crcValid buf)
    (hctl : ¬ (buf.length = 6 ∧
      (buf.getD 3 0 = 0x00 ∨ buf.getD 3 0 = 0xFF ∨ buf.getD 3 0 = 0x30))) :
    readResponse port = ((some ((buf.take (buf.length - 2)).drop 3), none), Ack port1) := by
  have hc := readLoop_ok_complete port [] 0 buf port1 hloop
  have h6 := hc.1
  rw [readResponse_of_loop _ _ _ hloop, validateResponse_ok buf h0 h1 hcrc]
  simp only
  apply classifyResponse_data
  rintro ⟨hl, h3⟩
  rw [List.length_take] at hl
  rw [getD_take_of_lt buf 3 _ (by omega)] at h3
  exact hctl ⟨by omega, h3⟩

theorem readResponse_control_of_loop (port port1 : Port) (buf : List Nat)
    (hloop : readLoop port [] 0 0 = (.ok buf, port1))
    (hlen : buf.length = 6) (h0 : buf.getD 0 0 = 0x02) (h1 : buf.getD 1 0 = 0x03)
    (hcrc : crcValid buf) :
    (buf.getD 3 0 = 0x00 → readResponse port = ((none, none), port1)) ∧
      (buf.getD 3 0 = 0xFF → readResponse port = ((none, some .nack), port1)) := by
  have hl : (buf.take (buf.length - 2)).length = 4 := by
    rw [List.length_take]; omega
  have h3t : (buf.take (buf.length - 2)).getD 3 0 = buf.getD 3 0 :=
    getD_take_of_lt buf 3 _ (by omega)
  constructor
  · intro h3
    rw [readResponse_of_loop _ _ _ hloop, validateResponse_ok buf h0 h1 hcrc]
    simp only
    unfold classifyResponse
    rw [h3t, h3, if_pos ⟨hl, rfl⟩]
  · intro h3
    rw [readResponse_of_loop _ _ _ hloop, validateResponse_ok buf h0 h1 hcrc]
    simp only
    unfold classifyResponse
    rw [h3t, h3, if_neg (by simp), if_pos ⟨hl, rfl⟩]

/-- The first failing read ends the loop with its error, after `n` good reads
that did not complete a frame. -/
theorem readLoop_first_error (n : Nat) (port : Port) (buf : List Nat) (rtc : Nat) (e : String)
    (hrtc : rtc + n + 1 < maxReadCount)
    (h : ∀ k, k < n → (port.script (port.readCount + k)).err = none ∧
      ¬ frameComplete (buf ++ received port (k + 1)))
    (he : (port.script (port.readCount + n)).err = some e) :
    readLoop port buf buf.length rtc =
      (.error (.transport e), { port with readCount := port.readCount + n + 1 }) := by
  induction n generalizing port buf rtc with
  | zero =>
    rw [Nat.add_zero] at he
    rw [readLoop_read_error _ _ _ _ e (by omega) he]
    rfl
  | succ n ih =>
    have h0 := h 0 (by omega)
    rw [received_succ, received_zero, List.append_nil, Nat.add_zero] at h0
    rw [readLoop_continue _ _ _ (by omega) h0.1 h0.2, ih _ _ _ (by omega)]
    · simp only [Port.Read, Prod.mk.injEq, true_and]
      congr 1
      omega
    · intro k hk
      have hk1 := h (k + 1) (by omega)
      rw [received_succ, ← List.append_assoc] at hk1
      refine ⟨?_, hk1.2⟩
      have : port.Read.2.readCount + k = port.readCount + (k + 1) := by
        simp only [Port.Read]; omega
      rw [this]
      exact hk1.1
    · have : port.Read.2.readCount + n = port.readCount + (n + 1) := by
        simp only [Port.Read]; omega
      rw [this]
      exact he

set_option maxRecDepth 100000 in
theorem crcValid_more_samples :
    crcValid [0x02, 0x03, 0x00, 0x1C, 0x61, 0xFB, 0x7D] ∧
      crcValid [0x02, 0x03, 0x06, 0x15, 0xEE, 0xC5] ∧
      crcValid [0x02, 0x03, 0x06, 0x14, 0x67, 0xD4] ∧
      crcValid [0x02, 0x03, 0x07, 0x14, 0x00, 0xB1, 0x4D] := by
  decide

/-- What `readResponse` returns after a request has been sent on a port that
delivers a data frame whole in its first read. -/
theorem readResponse_after_request (f : List Nat) (c : Nat) (d : List (List Nat))
    (hcomp : frameComplete f)
    (h0 : f.getD 0 0 = 0x02) (h1 : f.getD 1 0 = 0x03) (hcrc : crcValid f)
    (hctl : ¬ (f.length = 6 ∧ (f.getD 3 0 = 0x00 ∨ f.getD 3 0 = 0xFF ∨ f.getD 3 0 = 0x30))) :
    (readResponse (sendRequest (portDelivering f) c d)).1 =
      (some ((f.take (f.length - 2)).drop 3), none) := by
  have hloop := readLoop_single_read (sendRequest (portDelivering f) c d) f rfl hcomp
  rw [readResponse_data_of_loop _ _ _ hloop h0 h1 hcrc hctl]

/-! ## The errors of `Write` do not reach the results -/

theorem readLoop_withWriteErr (w : Nat → Option String) (port : Port) (buf : List Nat)
    (totalRead rtc : Nat) :
    readLoop (port.withWriteErr w) buf totalRead rtc =
      ((readLoop port buf totalRead rtc).1, (readLoop port buf totalRead rtc).2.withWriteErr w) := by
  generalize hn : maxReadCount - rtc = n
  induction n generalizing port buf totalRead rtc with
  | zero =>
    rw [readLoop_exceeded _ _ _ _ (by omega), readLoop_exceeded _ _ _ _ (by omega)]
  | succ n ih =>
    by_cases hr : maxReadCount ≤ rtc + 1
    · rw [readLoop_exceeded _ _ _ _ hr, readLoop_exceeded _ _ _ _ hr]
    · conv_lhs => rw [readLoop]
      conv_rhs => rw [readLoop]
      simp only [ge_iff_le, if_neg hr, Port.Read, Port.withWriteErr]
      cases he : (port.script port.readCount).err with
      | some e => simp only [Port.withWriteErr]
      | none =>
        simp only
        have ih1 := ih { port with readCount := port.readCount + 1 }
          (buf ++ (port.script port.readCount).data)
          (totalRead + (port.script port.readCount).data.length) (rtc + 1) (by omega)
        simp only [Port.withWriteErr] at ih1
        split
        · rw [ih1]
        · split
          · rw [ih1]
          · rfl

theorem sendRequest_withWriteErr (w : Nat → Option String) (port : Port) (c : Nat)
    (d : List (List Nat)) :
    sendRequest (port.withWriteErr w) c d = (sendRequest port c d).withWriteErr w := rfl

theorem classifyResponse_withWriteErr (w : Nat → Option String) (port : Port)
    (buf : List Nat) :
    classifyResponse (port.withWriteErr w) buf =
      ((classifyResponse port buf).1, (classifyResponse port buf).2.withWriteErr w) := by
  unfold classifyResponse
  split
  · rfl
  · split
    · rfl
    · split
      · rfl
      · rfl

theorem readResponse_withWriteErr (w : Nat → Option String) (port : Port) :
    readResponse (port.withWriteErr w) =
      ((readResponse port).1, (readResponse port).2.withWriteErr w) := by
  unfold readResponse
  rw [readLoop_withWriteErr]
  rcases readLoop port [] 0 0 with ⟨r, port1⟩
  cases r with
  | error e => rfl
  | ok buf =>
    simp only
    cases validateResponse buf with
    | error e => rfl
    | ok b =>
      simp only
      rw [classifyResponse_withWriteErr]

theorem Poll_withWriteErr (w : Nat → Option String) (port : Port) :
    (Poll (port.withWriteErr w)).1 = (Poll port).1 := by
  unfold Poll
  rw [sendRequest_withWriteErr, readResponse_withWriteErr]
  rcases readResponse (sendRequest port 0x33 [[]]) with ⟨⟨response, err⟩, port1⟩
  simp only
  cases response.getD [] with
  | nil => rfl
  | cons s rest => rfl

theorem readLoop_readCount (port : Port) (buf : List Nat) (totalRead rtc : Nat) :
    port.readCount ≤ (readLoop port buf totalRead rtc).2.readCount ∧
      (rtc + 1 < maxReadCount →
        port.readCount + 1 ≤ (readLoop port buf totalRead rtc).2.readCount) := by
  generalize hn : maxReadCount - rtc = n
  induction n generalizing port buf totalRead rtc with
  | zero =>
    rw [readLoop_exceeded _ _ _ _ (by omega)]
    exact ⟨Nat.le_refl _, fun h => by omega⟩
  | succ n ih =>
    by_cases hr : maxReadCount ≤ rtc + 1
    · rw [readLoop_exceeded _ _ _ _ hr]
      exact ⟨Nat.le_refl _, fun h => by omega⟩
    · have key : port.readCount + 1 ≤ (readLoop port buf totalRead rtc).2.readCount := by
        rw [readLoop]
        simp only [ge_iff_le, if_neg hr, Port.Read]
        split
        · exact Nat.le_refl _
        · split
          · exact (ih { port with readCount := port.readCount + 1 } _ _ (rtc + 1)
              (by omega)).1
          · split
            · exact (ih { port with readCount := port.readCount + 1 } _ _ (rtc + 1)
                (by omega)).1
            · exact Nat.le_refl _
      exact ⟨by omega, fun _ => key⟩

/-- What the header check and the checksum check make of a frame built by
`sendRequest` after one of its bytes has been replaced by a different byte. -/
theorem validateResponse_corrupted (c : Nat) (p : List Nat) (i v : Nat)
    (hc : c < 256) (hp : IsBytes p) (hlen : 6 + p.length ≤ 255) (hv : v < 256)
    (hi : i < (sendRequestBytes c [p]).length)
    (hne : v ≠ (sendRequestBytes c [p]).getD i 0) :
    validateResponse ((sendRequestBytes c [p]).set i v) =
      if i < 2 then .error .responseFormatInvalid
      else .error .responseVerificationFailed := by
  have hmod : (6 + p.length) % 256 = 6 + p.length := Nat.mod_eq_of_lt (by omega)
  have hb := isBytes_frame_body c p hc hp hlen
  have hcrc := Uint16LE_putUint16LE (GetCRC16_lt _ hb)
  have hF := sendRequestBytes_single c p
  rw [hmod] at hF
  rw [hF] at hi hne ⊢
  generalize hbody : [0x02, 0x03, 6 + p.length, c] ++ p = body at hi hne hb hcrc ⊢
  have hbl : 4 ≤ body.length := by rw [← hbody]; simp
  have hb0 : body.getD 0 0 = 0x02 := by rw [← hbody]; rfl
  have hb1 : body.getD 1 0 = 0x03 := by rw [← hbody]; rfl
  unfold putUint16LE at hi hne hcrc ⊢
  have hlo : GetCRC16 body % 256 < 256 := Nat.mod_lt _ (by norm_num)
  generalize GetCRC16 body % 256 = lo at hi hne hcrc hlo ⊢
  generalize (GetCRC16 body >>> 8) % 256 = hi8 at hi hne hcrc ⊢
  rw [Uint16LE_pair hi8 hlo] at hcrc
  rw [List.length_append] at hi
  by_cases hib : i < body.length
  · rw [List.getD_append _ _ _ _ hib] at hne
    rw [List.set_append_left i v hib]
    by_cases h2 : i < 2
    · rw [if_pos h2]
      apply validateResponse_bad_header
      rcases body with _ | ⟨a, _ | ⟨b, rest⟩⟩
      · simp at hbl
      · simp at hbl
      · simp only [List.getD_cons_zero, List.getD_cons_succ] at hb0 hb1
        subst hb0 hb1
        have hcases : i = 0 ∨ i = 1 := by omega
        rcases hcases with rfl | rfl
        · left
          simpa using hne
        · right
          simpa using hne
    · rw [if_neg h2]
      have hs0 : (body.set i v).getD 0 0 = 0x02 := by
        rcases body with _ | ⟨a, _ | ⟨b, rest⟩⟩
        · simp at hbl
        · simp at hbl
        · obtain ⟨j, rfl⟩ : ∃ j, i = j + 2 := ⟨i - 2, by omega⟩
          simpa using hb0
      have hs1 : (body.set i v).getD 1 0 = 0x03 := by
        rcases body with _ | ⟨a, _ | ⟨b, rest⟩⟩
        · simp at hbl
        · simp at hbl
        · obtain ⟨j, rfl⟩ : ∃ j, i = j + 2 := ⟨i - 2, by omega⟩
          simpa using hb1
      rw [validateResponse_append _ _ _ hs0 hs1 (by rw [List.length_set]; omega),
        Uint16LE_pair hi8 hlo, hcrc]
      rw [if_pos (fun h => GetCRC16_set_ne body hb i v hib hv hne h.symm)]
  · have h2 : ¬ i < 2 := by omega
    rw [if_neg h2]
    rw [List.getD_append_right _ _ _ _ (by omega)] at hne
    rw [List.set_append_right i v (by omega)]
    have hcases : i - body.length = 0 ∨ i - body.length = 1 := by
      simp only [List.length_cons, List.length_nil] at hi
      omega
    rcases hcases with h | h
    · rw [h] at hne ⊢
      simp only [List.getD_cons_zero] at hne
      rw [List.set_cons_zero, validateResponse_append _ _ _ hb0 hb1 (by omega),
        Uint16LE_pair hi8 hv, if_pos (by omega)]
    · rw [h] at hne ⊢
      simp only [List.getD_cons_zero, List.getD_cons_succ] at hne
      rw [List.set_cons_succ, List.set_cons_zero,
        validateResponse_append _ _ _ hb0 hb1 (by omega),
        Uint16LE_pair v hlo, if_pos (by omega)]

theorem received_snoc (port : Port) (n : Nat) :
    received port (n + 1) = received port n ++ (port.script (port.readCount + n)).data := by
  simp only [received, List.range_succ, List.map_append, List.flatten_append, List.map_cons,
    List.map_nil, List.flatten_cons, List.flatten_nil, List.append_nil]

/-- A port whose first read delivers `g` and whose later reads deliver nothing
has `g` buffered after every read. -/
theorem received_first_then_silent (port : Port) (g : List Nat)
    (hfirst : port.script port.readCount = ⟨g, none⟩)
    (hsil : ∀ k, 1 ≤ k → port.script (port.readCount + k) = ⟨[], none⟩) (k : Nat) :
    received port (k + 1) = g := by
  induction k with
  | zero =>
    rw [received_snoc, received_zero, Nat.add_zero, hfirst]
    rfl
  | succ k ih =>
    rw [received_snoc, ih, hsil (k + 1) (by omega)]
    exact List.append_nil g

theorem getD_two_set_ne (l : List Nat) (i v : Nat) (hi : i ≠ 2) :
    (l.set i v).getD 2 0 = l.getD 2 0 := by
  simp [List.getD_eq_getElem?_getD, List.getElem?_set_ne hi]

/-! ## The claims -/

/-- C1. Frame layout: for a command code `c` and a payload `p` of bytes with
`6 + len(p) <= 255`, `sendRequest` makes exactly one `Write`, of the bytes
`[0x02, 0x03, 6 + len(p), c] ++ p ++ [crc & 0xFF, crc >> 8]` with `crc` the
`GetCRC16` of everything before the checksum, and makes no read; the length
byte of the frame is the number of bytes written. -/
theorem sendRequest_frame_layout (port : Port) (c : Nat) (p : List Nat)
    (hc : c < 256) (hp : IsBytes p) (hlen : 6 + p.length ≤ 255) :
    sendRequest port c [p] =
        { port with written := port.written ++
            [[0x02, 0x03, 6 + p.length, c] ++ p ++
              [GetCRC16 ([0x02, 0x03, 6 + p.length, c] ++ p) &&& 0xFF,
                GetCRC16 ([0x02, 0x03, 6 + p.length, c] ++ p) >>> 8]] } ∧
      (sendRequestBytes c [p]).getD 2 0 = (sendRequestBytes c [p]).length := by
  have hmod : (6 + p.length) % 256 = 6 + p.length := Nat.mod_eq_of_lt (by omega)
  have hb : IsBytes ([0x02, 0x03, 6 + p.length, c] ++ p) := by
    intro b hb
    simp only [List.cons_append, List.nil_append, List.mem_cons] at hb
    rcases hb with h | h | h | h | h
    · omega
    · omega
    · omega
    · omega
    · exact hp b h
  have hbytes := sendRequestBytes_single c p
  rw [hmod, putUint16LE_eq (GetCRC16_lt _ hb)] at hbytes
  constructor
  · simp only [sendRequest, Port.Write, hbytes]
  · rw [hbytes]
    simp
    omega

/-- Witness for C1: the set-security command `0x32` with payload `01 02 03`. -/
theorem sendRequest_frame_layout_witness :
    (0x32 < 256 ∧ IsBytes [1, 2, 3] ∧ 6 + [1, 2, 3].length ≤ 255) ∧
      (sendRequest silentPort 0x32 [[1, 2, 3]] =
        { silentPort with written := silentPort.written ++
            [[0x02, 0x03, 6 + [1, 2, 3].length, 0x32] ++ [1, 2, 3] ++
              [GetCRC16 ([0x02, 0x03, 6 + [1, 2, 3].length, 0x32] ++ [1, 2, 3]) &&& 0xFF,
                GetCRC16 ([0x02, 0x03, 6 + [1, 2, 3].length, 0x32] ++ [1, 2, 3]) >>> 8]] } ∧
      (sendRequestBytes 0x32 [[1, 2, 3]]).getD 2 0 = (sendRequestBytes 0x32 [[1, 2, 3]]).length) :=
  ⟨⟨by decide, by decide, by decide⟩,
    sendRequest_frame_layout silentPort 0x32 [1, 2, 3] (by decide) (by decide) (by decide)⟩

/-- C2. Reference vector: the request `Reset` sends (command code `0x30`,
empty payload) is the six bytes `02 03 06 30 41 B3`, the checksum of
`02 03 06 30` being `0xB341`; `Reset` is that one write followed by
`readResponse`. -/
theorem reset_reference_vector :
    sendRequestBytes 0x30 [[]] = [0x02, 0x03, 0x06, 0x30, 0x41, 0xB3] ∧
      GetCRC16 [0x02, 0x03, 0x06, 0x30] = 0xB341 ∧
      ∀ port : Port, Reset port =
        readResponse { port with written := port.written ++ [[0x02, 0x03, 0x06, 0x30, 0x41, 0xB3]] } := by
  refine ⟨reset_bytes, reset_crc, ?_⟩
  intro port
  simp only [Reset, sendRequest, Port.Write, reset_bytes]

/-- C3. Round trip: for a command code `c` and a payload `p` of bytes with
`6 + len(p) <= 255`, the header check and the checksum check of
`readResponse` accept the frame `sendRequest` builds for `(c, p)`, leaving the
frame without its two checksum bytes; what is left of that after the three
header bytes is `c` followed by exactly `p`. -/
theorem sendRequest_round_trip (c : Nat) (p : List Nat)
    (hc : c < 256) (hp : IsBytes p) (hlen : 6 + p.length ≤ 255) :
    validateResponse (sendRequestBytes c [p]) = .ok ([0x02, 0x03, 6 + p.length, c] ++ p) ∧
      (validateResponse (sendRequestBytes c [p])).map (fun buf => buf.drop 3) = .ok (c :: p) := by
  have hmod : (6 + p.length) % 256 = 6 + p.length := Nat.mod_eq_of_lt (by omega)
  have hb : IsBytes ([0x02, 0x03, 6 + p.length, c] ++ p) := by
    intro b hb
    simp only [List.cons_append, List.nil_append, List.mem_cons] at hb
    rcases hb with h | h | h | h | h
    · omega
    · omega
    · omega
    · omega
    · exact hp b h
  have hv : validateResponse (sendRequestBytes c [p]) =
      .ok ([0x02, 0x03, 6 + p.length, c] ++ p) := by
    rw [sendRequestBytes_single, hmod]
    have hcrc := Uint16LE_putUint16LE (GetCRC16_lt _ hb)
    unfold putUint16LE at hcrc ⊢
    rw [validateResponse_append _ _ _ (by rfl) (by rfl) (by simp), hcrc]
    simp
  refine ⟨hv, ?_⟩
  rw [hv]
  rfl

/-- Witness for C3: the set-security command `0x32` with payload `01 02 03`. -/
theorem sendRequest_round_trip_witness :
    (0x32 < 256 ∧ IsBytes [1, 2, 3] ∧ 6 + [1, 2, 3].length ≤ 255) ∧
      (validateResponse (sendRequestBytes 0x32 [[1, 2, 3]]) =
          .ok ([0x02, 0x03, 6 + [1, 2, 3].length, 0x32] ++ [1, 2, 3]) ∧
        (validateResponse (sendRequestBytes 0x32 [[1, 2, 3]])).map (fun buf => buf.drop 3) =
          .ok (0x32 :: [1, 2, 3])) :=
  ⟨⟨by decide, by decide, by decide⟩,
    sendRequest_round_trip 0x32 [1, 2, 3] (by decide) (by decide) (by decide)⟩

/-- C5. ACK handshake side effect: on every port, `readResponse` makes exactly
one `Write`, of the ACK frame `02 03 06 00 C2 82`, when it returns a payload,
and makes no `Write` when it returns `nil` as payload (acknowledgment-only,
NACK, illegal command, framing error, checksum error, timeout, read error). -/
theorem readResponse_ack_write (port : Port) :
    (readResponse port).2.written =
      if (readResponse port).1.1.isSome then
        port.written ++ [[0x02, 0x03, 0x06, 0x00, 0xC2, 0x82]]
      else port.written := by
  rcases hl : readLoop port [] 0 0 with ⟨r, port1⟩
  have hw := readLoop_written port [] 0 0
  rw [hl] at hw
  simp only at hw
  cases r with
  | error e =>
    rw [readResponse_of_loop_error _ _ _ hl]
    simpa using hw
  | ok buf =>
    rw [readResponse_of_loop _ _ _ hl]
    cases hv : validateResponse buf with
    | error e => simpa using hw
    | ok b =>
      simp only
      rw [classifyResponse_written, hw]

/-- C4. Partial-read reassembly: let `f` be a frame with `f[0] = 0x02`,
`f[1] = 0x03`, length byte `f[2] = len(f) >= 6` and a valid checksum, other
than a short control frame (`len(f) = 6` with `f[3]` one of `0x00`, `0xFF`,
`0x30`).  When the next `k <= 1049` reads of the port all succeed and their
chunks, empty ones included, concatenate to `f`, `readResponse` returns
`f[3 : len(f)-2]` and no error, which is also what it returns when `f` arrives
whole in one read. -/
theorem readResponse_reassembles (port : Port) (f : List Nat) (k : Nat)
    (hk : k ≤ 1049)
    (herr : ∀ i, i < k → (port.script (port.readCount + i)).err = none)
    (hcat : received port k = f)
    (h0 : f.getD 0 0 = 0x02) (h1 : f.getD 1 0 = 0x03)
    (h2 : f.getD 2 0 = f.length) (h6 : 6 ≤ f.length) (hcrc : crcValid f)
    (hctl : ¬ (f.length = 6 ∧ (f.getD 3 0 = 0x00 ∨ f.getD 3 0 = 0xFF ∨ f.getD 3 0 = 0x30))) :
    (readResponse port).1 = (some ((f.take (f.length - 2)).drop 3), none) ∧
      (readResponse port).1 = (readResponse (portDelivering f)).1 := by
  have hA := readResponse_of_delivery port f k (by unfold maxReadCount; omega) herr hcat
    h0 h1 h2 h6 hcrc hctl
  have hB := readResponse_of_delivery (portDelivering f) f 1 (by decide)
    (fun i hi => by
      have : i = 0 := by omega
      subst this
      rfl)
    (received_portDelivering f) h0 h1 h2 h6 hcrc hctl
  exact ⟨hA, hA.trans hB.symm⟩

/-- Witness for C4: the frame `02 03 07 1C 61 FE F1` delivered in four reads,
one of them empty. -/
theorem readResponse_reassembles_witness :
    (4 ≤ 1049 ∧
      (∀ i, i < 4 → (chunkedPort.script (chunkedPort.readCount + i)).err = none) ∧
      received chunkedPort 4 = [0x02, 0x03, 0x07, 0x1C, 0x61, 0xFE, 0xF1] ∧
      crcValid [0x02, 0x03, 0x07, 0x1C, 0x61, 0xFE, 0xF1]) ∧
      ((readResponse chunkedPort).1 = (some [0x1C, 0x61], none) ∧
        (readResponse chunkedPort).1 =
          (readResponse (portDelivering [0x02, 0x03, 0x07, 0x1C, 0x61, 0xFE, 0xF1])).1) :=
  ⟨⟨by decide, fun _ _ => rfl, by decide, crcValid_samples.1⟩,
    readResponse_reassembles chunkedPort [0x02, 0x03, 0x07, 0x1C, 0x61, 0xFE, 0xF1] 4
      (by decide) (fun _ _ => rfl) (by decide) (by decide) (by decide) (by decide) (by decide)
      crcValid_samples.1 (by decide)⟩

/-- C6. Acknowledgment-only: when the loop of `readResponse` leaves a buffer of
exactly 6 bytes (so its length byte is 0 or 6) with the start code and
address in place, a valid checksum and fourth byte `0x00`, `readResponse`
returns `nil, nil`: no payload and no error, and it makes no write. -/
theorem readResponse_ack_only (port port1 : Port) (buf : List Nat)
    (hloop : readLoop port [] 0 0 = (.ok buf, port1))
    (hlen : buf.length = 6) (h0 : buf.getD 0 0 = 0x02) (h1 : buf.getD 1 0 = 0x03)
    (hcrc : crcValid buf) (h3 : buf.getD 3 0 = 0x00) :
    (buf.getD 2 0 = 0 ∨ buf.getD 2 0 = 6) ∧ readResponse port = ((none, none), port1) := by
  have hc := readLoop_ok_complete port [] 0 buf port1 hloop
  refine ⟨by rw [← hlen]; exact hc.2, ?_⟩
  rw [readResponse_of_loop _ _ _ hloop, validateResponse_ok buf h0 h1 hcrc]
  simp only
  have hl : (buf.take (buf.length - 2)).length = 4 := by
    rw [List.length_take]; omega
  have h3t : (buf.take (buf.length - 2)).getD 3 0 = 0x00 := by
    rw [getD_take_of_lt buf 3 _ (by omega)]; exact h3
  unfold classifyResponse
  rw [if_pos ⟨hl, h3t⟩]

/-- Witness for C6: the frame `02 03 06 00 C2 82` arriving in one read. -/
theorem readResponse_ack_only_witness :
    (readLoop (portDelivering [0x02, 0x03, 0x06, 0x00, 0xC2, 0x82]) [] 0 0 =
        (.ok [0x02, 0x03, 0x06, 0x00, 0xC2, 0x82],
          (portDelivering [0x02, 0x03, 0x06, 0x00, 0xC2, 0x82]).Read.2) ∧
      crcValid [0x02, 0x03, 0x06, 0x00, 0xC2, 0x82]) ∧
      (([0x02, 0x03, 0x06, 0x00, 0xC2, 0x82].getD 2 0 = 0 ∨
          [0x02, 0x03, 0x06, 0x00, 0xC2, 0x82].getD 2 0 = 6) ∧
        readResponse (portDelivering [0x02, 0x03, 0x06, 0x00, 0xC2, 0x82]) =
          ((none, none), (portDelivering [0x02, 0x03, 0x06, 0x00, 0xC2, 0x82]).Read.2)) :=
  ⟨⟨readLoop_single_read _ _ rfl (by decide), crcValid_samples.2.1⟩,
    readResponse_ack_only _ _ _ (readLoop_single_read _ _ rfl (by decide))
      (by decide) (by decide) (by decide) crcValid_samples.2.1 (by decide)⟩

/-- C7. NACK and illegal command: when the loop of `readResponse` leaves a
buffer of exactly 6 bytes (so its length byte is 0 or 6) with the start code
and address in place and a valid checksum, `readResponse` returns no payload
and the error `Nack` when the fourth byte is `0xFF`, and no payload and the
error `Illegal command` when the fourth byte is `0x30`. -/
theorem readResponse_nack_illegal (port port1 : Port) (buf : List Nat)
    (hloop : readLoop port [] 0 0 = (.ok buf, port1))
    (hlen : buf.length = 6) (h0 : buf.getD 0 0 = 0x02) (h1 : buf.getD 1 0 = 0x03)
    (hcrc : crcValid buf) :
    (buf.getD 2 0 = 0 ∨ buf.getD 2 0 = 6) ∧
      (buf.getD 3 0 = 0xFF → readResponse port = ((none, some .nack), port1)) ∧
      (buf.getD 3 0 = 0x30 → readResponse port = ((none, some .illegalCommand), port1)) ∧
      Error.nack.message = "Nack" ∧ Error.illegalCommand.message = "Illegal command" := by
  have hc := readLoop_ok_complete port [] 0 buf port1 hloop
  have hl : (buf.take (buf.length - 2)).length = 4 := by
    rw [List.length_take]; omega
  have h3t : (buf.take (buf.length - 2)).getD 3 0 = buf.getD 3 0 :=
    getD_take_of_lt buf 3 _ (by omega)
  refine ⟨by rw [← hlen]; exact hc.2, ?_, ?_, rfl, rfl⟩
  · intro h3
    rw [readResponse_of_loop _ _ _ hloop, validateResponse_ok buf h0 h1 hcrc]
    simp only
    unfold classifyResponse
    rw [h3t, h3, if_neg (by simp), if_pos ⟨hl, rfl⟩]
  · intro h3
    rw [readResponse_of_loop _ _ _ hloop, validateResponse_ok buf h0 h1 hcrc]
    simp only
    unfold classifyResponse
    rw [h3t, h3, if_neg (by simp), if_neg (by simp), if_pos ⟨hl, rfl⟩]

/-- Witness for C7: the frames `02 03 06 FF BA 8D` and `02 03 06 30 41 B3`,
each arriving in one read. -/
theorem readResponse_nack_illegal_witness :
    (readLoop (portDelivering [0x02, 0x03, 0x06, 0xFF, 0xBA, 0x8D]) [] 0 0 =
        (.ok [0x02, 0x03, 0x06, 0xFF, 0xBA, 0x8D],
          (portDelivering [0x02, 0x03, 0x06, 0xFF, 0xBA, 0x8D]).Read.2) ∧
      crcValid [0x02, 0x03, 0x06, 0xFF, 0xBA, 0x8D] ∧
      readLoop (portDelivering [0x02, 0x03, 0x06, 0x30, 0x41, 0xB3]) [] 0 0 =
        (.ok [0x02, 0x03, 0x06, 0x30, 0x41, 0xB3],
          (portDelivering [0x02, 0x03, 0x06, 0x30, 0x41, 0xB3]).Read.2) ∧
      crcValid [0x02, 0x03, 0x06, 0x30, 0x41, 0xB3]) ∧
      readResponse (portDelivering [0x02, 0x03, 0x06, 0xFF, 0xBA, 0x8D]) =
        ((none, some .nack), (portDelivering [0x02, 0x03, 0x06, 0xFF, 0xBA, 0x8D]).Read.2) ∧
      readResponse (portDelivering [0x02, 0x03, 0x06, 0x30, 0x41, 0xB3]) =
        ((none, some .illegalCommand),
          (portDelivering [0x02, 0x03, 0x06, 0x30, 0x41, 0xB3]).Read.2) :=
  ⟨⟨readLoop_single_read _ _ rfl (by decide), crcValid_samples.2.2.1,
      readLoop_single_read _ _ rfl (by decide), crcValid_samples.2.2.2.1⟩,
    (readResponse_nack_illegal _ _ _ (readLoop_single_read _ _ rfl (by decide))
      (by decide) (by decide) (by decide) crcValid_samples.2.2.1).2.1 (by decide),
    (readResponse_nack_illegal _ _ _ (readLoop_single_read _ _ rfl (by decide))
      (by decide) (by decide) (by decide) crcValid_samples.2.2.2.1).2.2.1 (by decide)⟩

/-- C8. Framing error: when the loop of `readResponse` leaves a buffer (which
then has at least 6 bytes and a third byte that is 0 or the buffer length)
whose first byte is not `0x02` or whose second byte is not `0x03`,
`readResponse` returns no payload and the error `Response format invalid`,
whatever the last two bytes are: the checksum is not looked at. -/
theorem readResponse_framing_error (port port1 : Port) (buf : List Nat)
    (hloop : readLoop port [] 0 0 = (.ok buf, port1))
    (hhdr : buf.getD 0 0 ≠ 0x02 ∨ buf.getD 1 0 ≠ 0x03) :
    (6 ≤ buf.length ∧ (buf.getD 2 0 = 0 ∨ buf.getD 2 0 = buf.length)) ∧
      readResponse port = ((none, some .responseFormatInvalid), port1) ∧
      Error.responseFormatInvalid.message = "Response format invalid" := by
  refine ⟨readLoop_ok_complete port [] 0 buf port1 hloop, ?_, rfl⟩
  rw [readResponse_of_loop _ _ _ hloop, validateResponse_bad_header buf hhdr]

/-- Witness for C8: the buffer `09 03 06 14 72 14`, whose checksum is valid
and whose first byte is not the start code, arriving in one read. -/
theorem readResponse_framing_error_witness :
    (readLoop (portDelivering [0x09, 0x03, 0x06, 0x14, 0x72, 0x14]) [] 0 0 =
        (.ok [0x09, 0x03, 0x06, 0x14, 0x72, 0x14],
          (portDelivering [0x09, 0x03, 0x06, 0x14, 0x72, 0x14]).Read.2) ∧
      ([0x09, 0x03, 0x06, 0x14, 0x72, 0x14].getD 0 0 ≠ 0x02 ∨
        [0x09, 0x03, 0x06, 0x14, 0x72, 0x14].getD 1 0 ≠ 0x03) ∧
      crcValid [0x09, 0x03, 0x06, 0x14, 0x72, 0x14]) ∧
      readResponse (portDelivering [0x09, 0x03, 0x06, 0x14, 0x72, 0x14]) =
        ((none, some .responseFormatInvalid),
          (portDelivering [0x09, 0x03, 0x06, 0x14, 0x72, 0x14]).Read.2) :=
  ⟨⟨readLoop_single_read _ _ rfl (by decide), by decide, crcValid_samples.2.2.2.2⟩,
    (readResponse_framing_error _ _ _ (readLoop_single_read _ _ rfl (by decide))
      (by decide)).2.1⟩

/-- C10. Bounded accumulation: on a port whose reads never fail and never
complete a frame (after each read fewer than 6 bytes are buffered, or the
third byte is nonzero and differs from the buffered length), `readResponse`
returns no payload and the error `Reads tries exceeded`; it has then made
`maxReadCount - 1 = 1049` reads, which is no more than `maxReadCount = 1050`,
and no write. -/
theorem readResponse_times_out (port : Port)
    (h : ∀ k, (port.script (port.readCount + k)).err = none ∧
      ((received port (k + 1)).length < 6 ∨
        ((received port (k + 1)).getD 2 0 ≠ 0 ∧
          (received port (k + 1)).getD 2 0 ≠ (received port (k + 1)).length))) :
    readResponse port =
        ((none, some .readsTriesExceeded), { port with readCount := port.readCount + 1049 }) ∧
      (readResponse port).2.readCount - port.readCount ≤ maxReadCount ∧
      (readResponse port).2.written = port.written ∧
      Error.readsTriesExceeded.message = "Reads tries exceeded" := by
  have hloop := readLoop_never_complete 1049 port [] 0 (by decide) (fun k _ => by
    refine ⟨(h k).1, ?_⟩
    rw [List.nil_append]
    rintro ⟨h6, h2⟩
    rcases (h k).2 with hlt | ⟨hne0, hnel⟩
    · omega
    · rcases h2 with h2 | h2
      · exact hne0 h2
      · exact hnel h2)
  have hres := readResponse_of_loop_error port _ _ hloop
  refine ⟨hres, ?_, ?_, rfl⟩
  · rw [hres]
    simp only [maxReadCount]
    omega
  · rw [hres]

/-- Witness for C10: the port on which nothing ever arrives. -/
theorem readResponse_times_out_witness :
    (∀ k, (silentPort.script (silentPort.readCount + k)).err = none ∧
      ((received silentPort (k + 1)).length < 6 ∨
        ((received silentPort (k + 1)).getD 2 0 ≠ 0 ∧
          (received silentPort (k + 1)).getD 2 0 ≠ (received silentPort (k + 1)).length))) ∧
      readResponse silentPort =
        ((none, some .readsTriesExceeded),
          { silentPort with readCount := silentPort.readCount + 1049 }) :=
  ⟨fun k => ⟨rfl, Or.inl (by rw [received_silentPort]; decide)⟩,
    (readResponse_times_out silentPort
      (fun k => ⟨rfl, Or.inl (by rw [received_silentPort]; decide)⟩)).1⟩

/-- C9, amended. Single-byte corruption: take a frame built by `sendRequest`
for a command code `c` and a payload `p` of bytes with `6 + len(p) <= 255`,
a position `i` in it and a byte `v` other than the byte at `i`, and a port
whose first read delivers the frame with `v` put at `i`.  `readResponse`
fails: with `Response format invalid` when `i` is 0 or 1; with
`Response verification failed` when `i >= 3`, or `i = 2` (the length byte)
and `v = 0`.  When `i = 2` and `v` is not 0 the corrupted frame does not pass
the completion test, so the loop keeps reading, and when the later reads
deliver nothing `readResponse` fails with `Reads tries exceeded` after 1049
reads. -/
theorem readResponse_single_byte_corruption (port : Port) (c : Nat) (p : List Nat) (i v : Nat)
    (hc : c < 256) (hp : IsBytes p) (hlen : 6 + p.length ≤ 255) (hv : v < 256)
    (hi : i < (sendRequestBytes c [p]).length)
    (hne : v ≠ (sendRequestBytes c [p]).getD i 0)
    (hfirst : port.script port.readCount = ⟨(sendRequestBytes c [p]).set i v, none⟩) :
    (i < 2 → readResponse port = ((none, some .responseFormatInvalid), port.Read.2)) ∧
      (2 ≤ i → (i = 2 → v = 0) →
        readResponse port = ((none, some .responseVerificationFailed), port.Read.2)) ∧
      (i = 2 → v ≠ 0 →
        ¬ frameComplete ((sendRequestBytes c [p]).set i v) ∧
          ((∀ k, 1 ≤ k → port.script (port.readCount + k) = ⟨[], none⟩) →
            readResponse port =
              ((none, some .readsTriesExceeded),
                { port with readCount := port.readCount + 1049 }))) := by
  have hmod : (6 + p.length) % 256 = 6 + p.length := Nat.mod_eq_of_lt (by omega)
  have hF := sendRequestBytes_single c p
  have hFl : (sendRequestBytes c [p]).length = 6 + p.length := by
    rw [hF]
    simp [putUint16LE]
    omega
  have hF2 : (sendRequestBytes c [p]).getD 2 0 = 6 + p.length := by
    rw [hF, hmod]
    rfl
  have hgl : ((sendRequestBytes c [p]).set i v).length = 6 + p.length := by
    rw [List.length_set, hFl]
  have hval := validateResponse_corrupted c p i v hc hp hlen hv hi hne
  have hstop : (i = 2 → v = 0) → frameComplete ((sendRequestBytes c [p]).set i v) := by
    intro h2
    refine ⟨by omega, ?_⟩
    by_cases hi2 : i = 2
    · left
      have hv0 := h2 hi2
      subst hi2 hv0
      rw [hF]
      rfl
    · right
      rw [getD_two_set_ne _ _ _ hi2, hF2, hgl]
  refine ⟨?_, ?_, ?_⟩
  · intro hlt
    have hloop := readLoop_single_read port _ hfirst (hstop (fun h => by omega))
    rw [readResponse_of_loop _ _ _ hloop, hval, if_pos hlt]
  · intro hge h2
    have hloop := readLoop_single_read port _ hfirst (hstop h2)
    rw [readResponse_of_loop _ _ _ hloop, hval, if_neg (by omega)]
  · intro hi2 hv0
    subst hi2
    have hg2 : ((sendRequestBytes c [p]).set 2 v).getD 2 0 = v := by
      rw [hF]
      rfl
    have hnc : ¬ frameComplete ((sendRequestBytes c [p]).set 2 v) := by
      rintro ⟨_, h2⟩
      rw [hg2, hgl] at h2
      rw [hF2] at hne
      omega
    refine ⟨hnc, ?_⟩
    intro hsil
    have hloop := readLoop_never_complete 1049 port [] 0 (by decide) (fun k _ => by
      rw [List.nil_append, received_first_then_silent port _ hfirst hsil k]
      refine ⟨?_, hnc⟩
      by_cases hk : k = 0
      · subst hk
        rw [Nat.add_zero, hfirst]
      · rw [hsil k (by omega)])
    exact readResponse_of_loop_error port _ _ hloop

/-- Witness for C9, amended: the reset frame with its command byte `0x30`
replaced by `0x31`, and with its length byte `06` replaced by `0x77`, each
delivered whole in the first read and followed by nothing. -/
theorem readResponse_single_byte_corruption_witness :
    (0x30 < 256 ∧ IsBytes [] ∧ 6 + ([] : List Nat).length ≤ 255 ∧ 0x31 < 256 ∧ 0x77 < 256 ∧
      3 < (sendRequestBytes 0x30 [[]]).length ∧
      0x31 ≠ (sendRequestBytes 0x30 [[]]).getD 3 0 ∧
      0x77 ≠ (sendRequestBytes 0x30 [[]]).getD 2 0) ∧
      readResponse (portDelivering ((sendRequestBytes 0x30 [[]]).set 3 0x31)) =
        ((none, some .responseVerificationFailed),
          (portDelivering ((sendRequestBytes 0x30 [[]]).set 3 0x31)).Read.2) ∧
      readResponse (portDelivering ((sendRequestBytes 0x30 [[]]).set 2 0x77)) =
        ((none, some .readsTriesExceeded),
          { portDelivering ((sendRequestBytes 0x30 [[]]).set 2 0x77) with
            readCount := (portDelivering ((sendRequestBytes 0x30 [[]]).set 2 0x77)).readCount +
              1049 }) :=
  ⟨⟨by decide, by decide, by decide, by decide, by decide, by rw [reset_bytes]; decide,
      by rw [reset_bytes]; decide, by rw [reset_bytes]; decide⟩,
    (readResponse_single_byte_corruption
      (portDelivering ((sendRequestBytes 0x30 [[]]).set 3 0x31)) 0x30 [] 3 0x31
      (by decide) (by decide) (by decide) (by decide) (by rw [reset_bytes]; decide)
      (by rw [reset_bytes]; decide) rfl).2.1 (by decide) (fun h => absurd h (by decide)),
    ((readResponse_single_byte_corruption
      (portDelivering ((sendRequestBytes 0x30 [[]]).set 2 0x77)) 0x30 [] 2 0x77
      (by decide) (by decide) (by decide) (by decide) (by rw [reset_bytes]; decide)
      (by rw [reset_bytes]; decide) rfl).2.2 rfl (by decide)).2
      (fun k hk => by
        have hk0 : ¬ (0 + k = 0) := by omega
        simp only [portDelivering, if_neg hk0])⟩

/-- C9 as stated fails: in the reset frame `02 03 06 30 41 B3`, built by
`sendRequest` for command code `0x30` and the empty payload, replacing the
start code at position 0 by the different byte `0x09` makes the validation of
`readResponse` fail with `Response format invalid`, not with
`Response verification failed`. -/
theorem single_byte_corruption_counterexample :
    validateResponse ((sendRequestBytes 0x30 [[]]).set 0 0x09) = .error .responseFormatInvalid ∧
    ¬ (∀ (c : Nat) (p : List Nat) (i v : Nat), c < 256 → IsBytes p → 6 + p.length ≤ 255 →
        v < 256 → i < (sendRequestBytes c [p]).length →
        v ≠ (sendRequestBytes c [p]).getD i 0 →
        validateResponse ((sendRequestBytes c [p]).set i v) =
          .error .responseVerificationFailed) := by
  refine ⟨by
    rw [reset_bytes, List.set_cons_zero]
    exact validateResponse_bad_header _ (Or.inl (by decide)), ?_⟩
  intro h
  have h1 := h 0x30 [] 0 0x09 (by decide) (by decide) (by decide) (by decide)
    (by rw [reset_bytes]; decide) (by rw [reset_bytes]; decide)
  rw [reset_bytes, List.set_cons_zero,
    validateResponse_bad_header _ (Or.inl (by decide))] at h1
  cases h1

/-- C17. CRC16 definition: `GetCRC16` of the empty sequence is 0, and for a
byte sequence `bs` and a byte `b`, `GetCRC16 (bs ++ [b])` is the update of
`GetCRC16 bs` by `b` as the specification words it: XOR `b` into the low byte
of the accumulator, then eight times shift right by one, XORing with `0x8408`
when the low bit was set. -/
theorem GetCRC16_refines_spec (bs : List Nat) (b : Nat) (hb : b < 256) :
    GetCRC16 [] = 0 ∧ GetCRC16 (bs ++ [b]) = specUpdate (GetCRC16 bs) b := by
  refine ⟨rfl, ?_⟩
  rw [GetCRC16_append, List.foldl_cons, List.foldl_nil]
  unfold crcUpdate specUpdate
  rw [crcShift_eq_specShift, xor_byte_eq _ hb]

/-- Witness for C17: the bytes `02 03 06` followed by `0x30`. -/
theorem GetCRC16_refines_spec_witness :
    0x30 < 256 ∧
      (GetCRC16 [] = 0 ∧
        GetCRC16 ([0x02, 0x03, 0x06] ++ [0x30]) = specUpdate (GetCRC16 [0x02, 0x03, 0x06]) 0x30) :=
  ⟨by decide, GetCRC16_refines_spec [0x02, 0x03, 0x06] 0x30 (by decide)⟩

/-- C19. CRC16 detects every single-byte change: for byte sequences `p` and
`s` and bytes `a != b`, `GetCRC16 (p ++ [a] ++ s)` and `GetCRC16 (p ++ [b] ++ s)`
differ; so in a frame with any two last bytes `lo`, `hi`, replacing one of the
bytes before them changes the checksum `readResponse` recomputes over the
frame without its last two bytes. -/
theorem GetCRC16_detects_single_byte_change (p s : List Nat) (a b lo hi : Nat)
    (hp : IsBytes p) (hs : IsBytes s) (ha : a < 256) (hb : b < 256) (hab : a ≠ b) :
    GetCRC16 (p ++ [a] ++ s) ≠ GetCRC16 (p ++ [b] ++ s) ∧
      GetCRC16 ((p ++ [a] ++ s ++ [lo, hi]).take ((p ++ [a] ++ s ++ [lo, hi]).length - 2)) ≠
        GetCRC16 ((p ++ [b] ++ s ++ [lo, hi]).take ((p ++ [b] ++ s ++ [lo, hi]).length - 2)) := by
  have h : GetCRC16 (p ++ [a] ++ s) ≠ GetCRC16 (p ++ [b] ++ s) := by
    rw [List.append_assoc, List.append_assoc]
    exact GetCRC16_ne_of_byte_ne p s a b hp hs ha hb hab
  refine ⟨h, ?_⟩
  have ta : (p ++ [a] ++ s ++ [lo, hi]).take ((p ++ [a] ++ s ++ [lo, hi]).length - 2) =
      p ++ [a] ++ s := take_append_pair _ lo hi
  have tb : (p ++ [b] ++ s ++ [lo, hi]).take ((p ++ [b] ++ s ++ [lo, hi]).length - 2) =
      p ++ [b] ++ s := take_append_pair _ lo hi
  rw [ta, tb]
  exact h

/-- Witness for C19: the command byte `0x30` of `02 03 06 30` against `0x31`. -/
theorem GetCRC16_detects_single_byte_change_witness :
    (IsBytes [0x02, 0x03, 0x06] ∧ IsBytes [] ∧ 0x30 < 256 ∧ 0x31 < 256 ∧ 0x30 ≠ 0x31) ∧
      GetCRC16 ([0x02, 0x03, 0x06] ++ [0x30] ++ []) ≠
        GetCRC16 ([0x02, 0x03, 0x06] ++ [0x31] ++ []) :=
  ⟨⟨by decide, by decide, by decide, by decide, by decide⟩,
    (GetCRC16_detects_single_byte_change [0x02, 0x03, 0x06] [] 0x30 0x31 0x41 0xB3
      (by decide) (by decide) (by decide) (by decide) (by decide)).1⟩

/-- C20. CRC16 residue: for a byte sequence `d` with `crc = GetCRC16 d`,
`GetCRC16 (d ++ [crc & 0xFF, crc >> 8])` is 0; so for a command code `c` and a
payload `p` of bytes the `GetCRC16` of the whole frame `sendRequest` builds
is 0. -/
theorem GetCRC16_residue_zero (d : List Nat) (c : Nat) (p : List Nat)
    (hc : c < 256) (hp : IsBytes p) :
    GetCRC16 (d ++ [GetCRC16 d &&& 0xFF, GetCRC16 d >>> 8]) = 0 ∧
      GetCRC16 (sendRequestBytes c [p]) = 0 := by
  have h1 : GetCRC16 d &&& 0xFF = GetCRC16 d % 256 := Nat.and_pow_two_sub_one_eq_mod _ 8
  have h2 : GetCRC16 d >>> 8 = GetCRC16 d / 256 := by simp [Nat.shiftRight_eq_div_pow]
  refine ⟨by rw [h1, h2]; exact GetCRC16_residue d, ?_⟩
  have hb : IsBytes ([0x02, 0x03, (6 + p.length) % 256, c] ++ p) := by
    intro b hb
    simp only [List.cons_append, List.nil_append, List.mem_cons] at hb
    rcases hb with h | h | h | h | h
    · omega
    · omega
    · omega
    · omega
    · exact hp b h
  have hlt := GetCRC16_lt _ hb
  rw [sendRequestBytes_single]
  unfold putUint16LE
  have h3 : ∀ v : Nat, v < 65536 → (v >>> 8) % 256 = v / 256 := by
    intro v hv
    rw [Nat.shiftRight_eq_div_pow]
    norm_num
    omega
  rw [h3 _ hlt]
  exact GetCRC16_residue _

/-- Witness for C20: the data `02 03 06 30` and the set-security frame with
payload `01 02 03`. -/
theorem GetCRC16_residue_zero_witness :
    (0x32 < 256 ∧ IsBytes [1, 2, 3]) ∧
      (GetCRC16 ([0x02, 0x03, 0x06, 0x30] ++
          [GetCRC16 [0x02, 0x03, 0x06, 0x30] &&& 0xFF, GetCRC16 [0x02, 0x03, 0x06, 0x30] >>> 8]) = 0 ∧
        GetCRC16 (sendRequestBytes 0x32 [[1, 2, 3]]) = 0) :=
  ⟨⟨by decide, by decide⟩,
    GetCRC16_residue_zero [0x02, 0x03, 0x06, 0x30] 0x32 [1, 2, 3] (by decide) (by decide)⟩

/-- C11. Poll decoding: whenever the exchange of `Poll` (request `0x33`, then
`readResponse`) delivers a payload `p`, the payload is not empty and `Poll`
returns the status `p[0]` as the raw byte, the sub-code `p[1]` when
`len(p) >= 2` and 0 otherwise, and no error; so payload `15` gives
`(Accepting, 0)` and payload `1C 61` gives `(Rejecting, DueToMagnetic)`. -/
theorem Poll_decodes_payload (port : Port) (p : List Nat)
    (h : (readResponse (sendRequest port 0x33 [[]])).1.1 = some p) :
    p ≠ [] ∧
      Poll port = (some (p.getD 0 0, (if 2 ≤ p.length then p.getD 1 0 else 0), none),
        (readResponse (sendRequest port 0x33 [[]])).2) ∧
      (p = [0x15] → (Poll port).1 = some (Accepting, 0, none)) ∧
      (p = [0x1C, 0x61] → (Poll port).1 = some (Rejecting, DueToMagnetic, none)) := by
  have hp := Poll_of_payload port p h
  refine ⟨(readResponse_payload _ _ h).1, hp, ?_, ?_⟩
  · intro e
    rw [hp, e]
    rfl
  · intro e
    rw [hp, e]
    rfl

/-- Witness for C11: the reply `02 03 07 1C 61 FE F1` to the poll request. -/
theorem Poll_decodes_payload_witness :
    (readResponse (sendRequest (portDelivering [0x02, 0x03, 0x07, 0x1C, 0x61, 0xFE, 0xF1])
        0x33 [[]])).1.1 = some [0x1C, 0x61] ∧
      (Poll (portDelivering [0x02, 0x03, 0x07, 0x1C, 0x61, 0xFE, 0xF1])).1 =
        some (Rejecting, DueToMagnetic, none) :=
  ⟨congrArg Prod.fst (readResponse_after_request [0x02, 0x03, 0x07, 0x1C, 0x61, 0xFE, 0xF1]
      0x33 [[]] (by decide) (by decide) (by decide) crcValid_samples.1 (by decide)),
    (Poll_decodes_payload (portDelivering [0x02, 0x03, 0x07, 0x1C, 0x61, 0xFE, 0xF1])
      [0x1C, 0x61]
      (congrArg Prod.fst (readResponse_after_request [0x02, 0x03, 0x07, 0x1C, 0x61, 0xFE, 0xF1]
        0x33 [[]] (by decide) (by decide) (by decide) crcValid_samples.1 (by decide)))).2.2.2 rfl⟩

/-- C12, the code at the failing input: when the reply to the poll request is
the NACK frame `02 03 06 FF BA 8D`, `readResponse` returns `nil` and the error
`Nack`, and `Poll` then indexes `response[0]` on the `nil` slice: it panics
instead of returning the error.  The same happens whenever `readResponse`
returns no payload, the request write and `readResponse` having taken place. -/
theorem Poll_panics_without_payload :
    (readResponse (sendRequest (portDelivering [0x02, 0x03, 0x06, 0xFF, 0xBA, 0x8D])
        0x33 [[]])).1 = (none, some .nack) ∧
      (Poll (portDelivering [0x02, 0x03, 0x06, 0xFF, 0xBA, 0x8D])).1 = none ∧
      ∀ port : Port, (readResponse (sendRequest port 0x33 [[]])).1.1 = none →
        Poll port = (none, (readResponse (sendRequest port 0x33 [[]])).2) := by
  have hloop := readLoop_single_read
    (sendRequest (portDelivering [0x02, 0x03, 0x06, 0xFF, 0xBA, 0x8D]) 0x33 [[]])
    [0x02, 0x03, 0x06, 0xFF, 0xBA, 0x8D] rfl (by decide)
  have hr := (readResponse_control_of_loop _ _ _ hloop (by decide) (by decide) (by decide)
    crcValid_samples.2.2.1).2 (by decide)
  refine ⟨by rw [hr], by rw [Poll_of_no_payload _ (by rw [hr])],
    fun port h => Poll_of_no_payload port h⟩

/-- C14. Read I/O error: when read number `k` of the port (`1 <= k <= 1049`)
returns the error `e`, the reads before it having succeeded without
completing a frame, `readResponse` returns no payload and exactly the error
`e`, having made exactly `k` reads and no write. -/
theorem readResponse_read_error (port : Port) (k : Nat) (e : String)
    (hk1 : 1 ≤ k) (hk : k ≤ 1049)
    (hprev : ∀ i, i + 1 < k → (port.script (port.readCount + i)).err = none ∧
      ¬ frameComplete (received port (i + 1)))
    (he : (port.script (port.readCount + (k - 1))).err = some e) :
    readResponse port =
        ((none, some (.transport e)), { port with readCount := port.readCount + k }) ∧
      (Error.transport e).message = e := by
  have hloop := readLoop_first_error (k - 1) port [] 0 e (by unfold maxReadCount; omega)
    (fun i hi => by
      rw [List.nil_append]
      exact hprev i (by omega)) he
  refine ⟨?_, rfl⟩
  rw [readResponse_of_loop_error _ _ _ hloop]
  have hk2 : port.readCount + (k - 1) + 1 = port.readCount + k := by omega
  rw [hk2]

/-- Witness for C14: two reads of one byte each, then a read failing with
`EOF`. -/
theorem readResponse_read_error_witness :
    (1 ≤ 3 ∧ 3 ≤ 1049 ∧
      (∀ i, i + 1 < 3 →
        ((portFailingThirdRead "EOF").script ((portFailingThirdRead "EOF").readCount + i)).err =
            none ∧
          ¬ frameComplete (received (portFailingThirdRead "EOF") (i + 1))) ∧
      ((portFailingThirdRead "EOF").script
        ((portFailingThirdRead "EOF").readCount + (3 - 1))).err = some "EOF") ∧
      readResponse (portFailingThirdRead "EOF") =
        ((none, some (.transport "EOF")),
          { portFailingThirdRead "EOF" with
            readCount := (portFailingThirdRead "EOF").readCount + 3 }) :=
  ⟨⟨by decide, by decide,
      fun i hi => by
        have hc : i = 0 ∨ i = 1 := by omega
        rcases hc with rfl | rfl
        · exact ⟨rfl, by decide⟩
        · exact ⟨rfl, by decide⟩,
      rfl⟩,
    (readResponse_read_error (portFailingThirdRead "EOF") 3 "EOF" (by decide) (by decide)
      (fun i hi => by
        have hc : i = 0 ∨ i = 1 := by omega
        rcases hc with rfl | rfl
        · exact ⟨rfl, by decide⟩
        · exact ⟨rfl, by decide⟩)
      rfl).1⟩

/-- C18, amended. Completion predicate: after a successful read the loop of
`readResponse` stops with the buffer if and only if at least 6 bytes are
buffered and the third byte is 0 or the number of buffered bytes.  Otherwise
it goes round again: it makes another read when that read is not the 1049th
or later, and after the 1049th read it returns `Reads tries exceeded` without
another read.  With third byte 0 any length from 6 up stops the loop: the
7-byte buffer `02 03 00 1C 61 FB 7D`, whose checksum is valid, makes
`readResponse` return the payload `1C 61` and no error. -/
theorem readLoop_completion_predicate (port : Port) (buf : List Nat) (rtc : Nat)
    (h : rtc + 1 < maxReadCount) (he : (port.script port.readCount).err = none) :
    (readLoop port buf buf.length rtc =
          (.ok (buf ++ (port.script port.readCount).data), port.Read.2) ↔
        6 ≤ (buf ++ (port.script port.readCount).data).length ∧
          ((buf ++ (port.script port.readCount).data).getD 2 0 = 0 ∨
            (buf ++ (port.script port.readCount).data).getD 2 0 =
              (buf ++ (port.script port.readCount).data).length)) ∧
      (¬ frameComplete (buf ++ (port.script port.readCount).data) →
        rtc + 2 < maxReadCount →
        readLoop port buf buf.length rtc =
            readLoop port.Read.2 (buf ++ (port.script port.readCount).data)
              (buf ++ (port.script port.readCount).data).length (rtc + 1) ∧
          port.readCount + 2 ≤ (readLoop port buf buf.length rtc).2.readCount) ∧
      (¬ frameComplete (buf ++ (port.script port.readCount).data) →
        rtc + 2 = maxReadCount →
        readLoop port buf buf.length rtc = (.error .readsTriesExceeded, port.Read.2)) ∧
      ([0x02, 0x03, 0x00, 0x1C, 0x61, 0xFB, 0x7D].getD 2 0 = 0 ∧
        6 < [0x02, 0x03, 0x00, 0x1C, 0x61, 0xFB, 0x7D].length ∧
        crcValid [0x02, 0x03, 0x00, 0x1C, 0x61, 0xFB, 0x7D] ∧
        (readResponse (portDelivering [0x02, 0x03, 0x00, 0x1C, 0x61, 0xFB, 0x7D])).1 =
          (some [0x1C, 0x61], none)) := by
  refine ⟨⟨fun hres => readLoop_ok_complete port buf rtc _ _ hres,
      fun hc => readLoop_break port buf rtc h he hc⟩, ?_, ?_,
    rfl, by decide, crcValid_more_samples.1, ?_⟩
  · intro hnc hlt
    have hcont := readLoop_continue port buf rtc h he hnc
    refine ⟨hcont, ?_⟩
    rw [hcont]
    have hrd := (readLoop_readCount port.Read.2
      (buf ++ (port.script port.readCount).data)
      (buf ++ (port.script port.readCount).data).length (rtc + 1)).2 (by omega)
    have hp : port.Read.2.readCount = port.readCount + 1 := rfl
    omega
  · intro hnc heq
    rw [readLoop_continue port buf rtc h he hnc, readLoop_exceeded _ _ _ _ (by omega)]
  · have hloop := readLoop_single_read
      (portDelivering [0x02, 0x03, 0x00, 0x1C, 0x61, 0xFB, 0x7D])
      [0x02, 0x03, 0x00, 0x1C, 0x61, 0xFB, 0x7D] rfl (by decide)
    rw [readResponse_data_of_loop _ _ _ hloop (by decide) (by decide) crcValid_more_samples.1
      (by decide)]
    rfl

/-- Witness for C18, amended: the first read of the chunked port delivers
`02 03`, which does not complete a frame, and the loop reads again. -/
theorem readLoop_completion_predicate_witness :
    (0 + 1 < maxReadCount ∧ (chunkedPort.script chunkedPort.readCount).err = none ∧
      ¬ frameComplete ([] ++ (chunkedPort.script chunkedPort.readCount).data) ∧
      0 + 2 < maxReadCount) ∧
      chunkedPort.readCount + 2 ≤
        (readLoop chunkedPort [] ([] : List Nat).length 0).2.readCount :=
  ⟨⟨by decide, rfl, by decide, by decide⟩,
    ((readLoop_completion_predicate chunkedPort [] 0 (by decide) rfl).2.1
      (by decide) (by decide)).2⟩

/-- C18 as stated fails at the bound on the tries: on the silent port every
read succeeds and leaves an incomplete (empty) buffer, yet after the 1049th
read `readResponse` does not read again: it returns `Reads tries exceeded`
with 1049 reads made. -/
theorem reads_again_counterexample :
    readResponse silentPort =
        ((none, some .readsTriesExceeded),
          { silentPort with readCount := silentPort.readCount + 1049 }) ∧
      ¬ (∀ (port : Port) (n : Nat),
        (∀ k, k < n → (port.script (port.readCount + k)).err = none ∧
          ¬ frameComplete (received port (k + 1))) →
        port.readCount + n + 1 ≤ (readResponse port).2.readCount) := by
  have hloop := readLoop_never_complete 1049 silentPort [] 0 (by decide) (fun k _ => by
    refine ⟨rfl, ?_⟩
    rw [List.nil_append, received_silentPort]
    decide)
  have hres := readResponse_of_loop_error silentPort _ _ hloop
  refine ⟨hres, ?_⟩
  intro hall
  have h1 := hall silentPort 1049 (fun k _ => by
    refine ⟨rfl, ?_⟩
    rw [received_silentPort]
    decide)
  rw [hres] at h1
  have h0 : silentPort.readCount = 0 := rfl
  simp only [h0] at h1
  omega

/-- C13, amended. Oversized payload: for a command code `c` and a payload `p`
of bytes with `6 + len(p) > 255` nothing is checked: `sendRequest` still makes
one `Write`, of a frame of `6 + len(p)` bytes laid out as for a shorter
payload, whose length byte is `(6 + len(p)) mod 256` and so differs from the
number of bytes written. -/
theorem sendRequest_oversized_payload (port : Port) (c : Nat) (p : List Nat)
    (hc : c < 256) (hp : IsBytes p) (hlen : 255 < 6 + p.length) :
    sendRequest port c [p] =
        { port with written := port.written ++
            [[0x02, 0x03, (6 + p.length) % 256, c] ++ p ++
              [GetCRC16 ([0x02, 0x03, (6 + p.length) % 256, c] ++ p) &&& 0xFF,
                GetCRC16 ([0x02, 0x03, (6 + p.length) % 256, c] ++ p) >>> 8]] } ∧
      (sendRequestBytes c [p]).length = 6 + p.length ∧
      (sendRequestBytes c [p]).getD 2 0 = (6 + p.length) % 256 ∧
      (sendRequestBytes c [p]).getD 2 0 ≠ (sendRequestBytes c [p]).length := by
  have hb : IsBytes ([0x02, 0x03, (6 + p.length) % 256, c] ++ p) := by
    intro b hb
    simp only [List.cons_append, List.nil_append, List.mem_cons] at hb
    rcases hb with h | h | h | h | h
    · omega
    · omega
    · omega
    · omega
    · exact hp b h
  have hbytes := sendRequestBytes_single c p
  have hl : (sendRequestBytes c [p]).length = 6 + p.length := by
    rw [hbytes]
    simp [putUint16LE]
    omega
  have h2 : (sendRequestBytes c [p]).getD 2 0 = (6 + p.length) % 256 := by
    rw [hbytes]
    rfl
  refine ⟨?_, hl, h2, ?_⟩
  · rw [putUint16LE_eq (GetCRC16_lt _ hb)] at hbytes
    simp only [sendRequest, Port.Write, hbytes]
  · rw [h2, hl]
    omega

/-- Witness for C13, amended: the set-security command with 250 zero bytes. -/
theorem sendRequest_oversized_payload_witness :
    (0x32 < 256 ∧ IsBytes (List.replicate 250 0) ∧ 255 < 6 + (List.replicate 250 0).length) ∧
      ((sendRequestBytes 0x32 [List.replicate 250 0]).length =
          6 + (List.replicate 250 0).length ∧
        (sendRequestBytes 0x32 [List.replicate 250 0]).getD 2 0 =
          (6 + (List.replicate 250 0).length) % 256) :=
  ⟨⟨by decide, fun b hb => by rw [List.eq_of_mem_replicate hb]; decide,
      by rw [List.length_replicate]; decide⟩,
    (sendRequest_oversized_payload silentPort 0x32 (List.replicate 250 0) (by decide)
      (fun b hb => by rw [List.eq_of_mem_replicate hb]; decide)
      (by rw [List.length_replicate]; decide)).2.1,
    (sendRequest_oversized_payload silentPort 0x32 (List.replicate 250 0) (by decide)
      (fun b hb => by rw [List.eq_of_mem_replicate hb]; decide)
      (by rw [List.length_replicate]; decide)).2.2.1⟩

/-- C13 as stated fails: for the set-security command `0x32` with a payload of
250 zero bytes (`6 + 250 = 256 > 255`) `sendRequest` does write: the write log
of the silent port, empty before, holds one frame afterwards, of 256 bytes
and with length byte 0. -/
theorem oversized_payload_counterexample :
    (sendRequest silentPort 0x32 [List.replicate 250 0]).written =
        [sendRequestBytes 0x32 [List.replicate 250 0]] ∧
      (sendRequestBytes 0x32 [List.replicate 250 0]).getD 2 0 = 0 ∧
      ¬ (∀ (port : Port) (c : Nat) (p : List Nat), c < 256 → IsBytes p → 255 < 6 + p.length →
        (sendRequest port c [p]).written = port.written) := by
  have hw : (sendRequest silentPort 0x32 [List.replicate 250 0]).written =
      [sendRequestBytes 0x32 [List.replicate 250 0]] := rfl
  refine ⟨hw, by rw [sendRequestBytes_single, List.length_replicate]; rfl, ?_⟩
  intro h
  have h1 := h silentPort 0x32 (List.replicate 250 0) (by decide)
    (fun b hb => by rw [List.eq_of_mem_replicate hb]; decide)
    (by rw [List.length_replicate]; decide)
  rw [hw] at h1
  exact List.cons_ne_nil _ _ h1

/-- C15, amended. Write I/O error: whatever errors the `Write` calls of the
port return, each command gives the caller the same result as on the port
whose writes return `w` instead; the error of `Write` is dropped by
`sendRequest`, the command goes on to `readResponse`, and no error of a write
is reported. -/
theorem commands_drop_write_error (port : Port) (w : Nat → Option String) (data : List Nat) :
    (Reset (port.withWriteErr w)).1 = (Reset port).1 ∧
      (GetStatus (port.withWriteErr w)).1 = (GetStatus port).1 ∧
      (SetSecurity (port.withWriteErr w) data).1 = (SetSecurity port data).1 ∧
      (Poll (port.withWriteErr w)).1 = (Poll port).1 ∧
      (Identification (port.withWriteErr w)).1 = (Identification port).1 ∧
      (GetBillTable (port.withWriteErr w)).1 = (GetBillTable port).1 ∧
      (AckCommand (port.withWriteErr w)).1 = (AckCommand port).1 ∧
      (Nack (port.withWriteErr w)).1 = (Nack port).1 := by
  refine ⟨?_, ?_, ?_, Poll_withWriteErr w port, ?_, ?_, ?_, ?_⟩
  · unfold Reset
    rw [sendRequest_withWriteErr, readResponse_withWriteErr]
  · unfold GetStatus
    rw [sendRequest_withWriteErr, readResponse_withWriteErr]
  · unfold SetSecurity
    rw [sendRequest_withWriteErr, readResponse_withWriteErr]
  · unfold Identification
    rw [sendRequest_withWriteErr, readResponse_withWriteErr]
  · unfold GetBillTable
    rw [sendRequest_withWriteErr, readResponse_withWriteErr]
  · unfold AckCommand
    rw [sendRequest_withWriteErr, readResponse_withWriteErr]
  · unfold Nack
    rw [sendRequest_withWriteErr, readResponse_withWriteErr]

/-- C15 as stated fails: on a port whose every write fails with
`write failed` and whose first read delivers the acknowledgment frame
`02 03 06 00 C2 82`, the write of the reset request fails and `Reset` returns
`nil, nil`: no error is reported. -/
theorem write_error_counterexample :
    ((portFailingWrites [0x02, 0x03, 0x06, 0x00, 0xC2, 0x82] "write failed").Write
        (sendRequestBytes 0x30 [[]])).1 = some "write failed" ∧
      (Reset (portFailingWrites [0x02, 0x03, 0x06, 0x00, 0xC2, 0x82] "write failed")).1 =
        (none, none) ∧
      ¬ (∀ port : Port, (port.Write (sendRequestBytes 0x30 [[]])).1 ≠ none →
        (Reset port).1.2 ≠ none) := by
  have hloop := readLoop_single_read
    (sendRequest (portFailingWrites [0x02, 0x03, 0x06, 0x00, 0xC2, 0x82] "write failed")
      0x30 [[]])
    [0x02, 0x03, 0x06, 0x00, 0xC2, 0x82] rfl (by decide)
  have hr := (readResponse_control_of_loop _ _ _ hloop (by decide) (by decide) (by decide)
    crcValid_samples.2.1).1 (by decide)
  have hreset : (Reset (portFailingWrites [0x02, 0x03, 0x06, 0x00, 0xC2, 0x82]
      "write failed")).1 = (none, none) := by
    unfold Reset
    rw [hr]
  refine ⟨rfl, hreset, ?_⟩
  intro h
  have h1 := h (portFailingWrites [0x02, 0x03, 0x06, 0x00, 0xC2, 0x82] "write failed")
    (by simp [Port.Write, portFailingWrites])
  rw [hreset] at h1
  exact h1 rfl

/-- C16, amended. Command codes: each command method first makes one `Write`,
of the frame `sendRequest` builds for its command code (`Reset` `0x30`,
`GetStatus` `0x31`, `SetSecurity` `0x32` with the caller's data as payload,
`Poll` `0x33`, `Identification` `0x37`, `GetBillTable` `0x41`, `Ack` `0x00`,
`Nack` `0xFF`; empty payload except for `SetSecurity`), no read having been
made, and then runs `readResponse`.  All but `Poll` return the result of
`readResponse`.  For `Poll` the port afterwards is in every case, the panic
included, the port after that write and `readResponse`; when `readResponse`
yields a payload `p`, `Poll` returns the status `p[0]`, the sub-code (`p[1]`
when `len(p) >= 2`, else 0) and no error. -/
theorem commands_send_then_read (port : Port) (data : List Nat) :
    Reset port =
        readResponse { port with written := port.written ++ [sendRequestBytes 0x30 [[]]] } ∧
      GetStatus port =
        readResponse { port with written := port.written ++ [sendRequestBytes 0x31 [[]]] } ∧
      SetSecurity port data =
        readResponse { port with written := port.written ++ [sendRequestBytes 0x32 [data]] } ∧
      Identification port =
        readResponse { port with written := port.written ++ [sendRequestBytes 0x37 [[]]] } ∧
      GetBillTable port =
        readResponse { port with written := port.written ++ [sendRequestBytes 0x41 [[]]] } ∧
      AckCommand port =
        readResponse { port with written := port.written ++ [sendRequestBytes 0x00 [[]]] } ∧
      Nack port =
        readResponse { port with written := port.written ++ [sendRequestBytes 0xFF [[]]] } ∧
      (Poll port).2 =
        (readResponse { port with written := port.written ++ [sendRequestBytes 0x33 [[]]] }).2 ∧
      ∀ p : List Nat,
        (readResponse
          { port with written := port.written ++ [sendRequestBytes 0x33 [[]]] }).1.1 = some p →
        (Poll port).1 = some (p.getD 0 0, (if 2 ≤ p.length then p.getD 1 0 else 0), none) :=
  ⟨rfl, rfl, rfl, rfl, rfl, rfl, rfl, Poll_port port,
    fun p h => congrArg Prod.fst (Poll_of_payload port p h)⟩

/-- C16 as stated fails for `Poll`: when the reply to the poll request carries
the payload `14`, and when it carries the payload `14 00`, `readResponse`
returns these two different payloads, and `Poll` returns `(0x14, 0, nil)` both
times; what `Poll` returns is the decoded status and sub-code, not the result
of `readResponse`. -/
theorem Poll_result_counterexample :
    (readResponse (sendRequest (portDelivering [0x02, 0x03, 0x06, 0x14, 0x67, 0xD4])
        0x33 [[]])).1 = (some [0x14], none) ∧
      (readResponse (sendRequest (portDelivering [0x02, 0x03, 0x07, 0x14, 0x00, 0xB1, 0x4D])
        0x33 [[]])).1 = (some [0x14, 0x00], none) ∧
      (Poll (portDelivering [0x02, 0x03, 0x06, 0x14, 0x67, 0xD4])).1 =
        some (0x14, 0, none) ∧
      (Poll (portDelivering [0x02, 0x03, 0x07, 0x14, 0x00, 0xB1, 0x4D])).1 =
        some (0x14, 0, none) ∧
      ¬ (∀ port port1 : Port, (Poll port).1 = (Poll port1).1 →
        (readResponse (sendRequest port 0x33 [[]])).1 =
          (readResponse (sendRequest port1 0x33 [[]])).1) := by
  have hA := readResponse_after_request [0x02, 0x03, 0x06, 0x14, 0x67, 0xD4] 0x33 [[]]
    (by decide) (by decide) (by decide) crcValid_more_samples.2.2.1 (by decide)
  have hB := readResponse_after_request [0x02, 0x03, 0x07, 0x14, 0x00, 0xB1, 0x4D] 0x33 [[]]
    (by decide) (by decide) (by decide) crcValid_more_samples.2.2.2 (by decide)
  have hA1 : (readResponse (sendRequest (portDelivering [0x02, 0x03, 0x06, 0x14, 0x67, 0xD4])
      0x33 [[]])).1 = (some [0x14], none) := hA
  have hB1 : (readResponse (sendRequest (portDelivering [0x02, 0x03, 0x07, 0x14, 0x00, 0xB1, 0x4D])
      0x33 [[]])).1 = (some [0x14, 0x00], none) := hB
  have pA : (Poll (portDelivering [0x02, 0x03, 0x06, 0x14, 0x67, 0xD4])).1 =
      some (0x14, 0, none) := by
    rw [Poll_of_payload _ [0x14] (congrArg Prod.fst hA1)]
    rfl
  have pB : (Poll (portDelivering [0x02, 0x03, 0x07, 0x14, 0x00, 0xB1, 0x4D])).1 =
      some (0x14, 0, none) := by
    rw [Poll_of_payload _ [0x14, 0x00] (congrArg Prod.fst hB1)]
    rfl
  refine ⟨hA1, hB1, pA, pB, ?_⟩
  intro h
  have h1 := h _ _ (pA.trans pB.symm)
  rw [hA1, hB1] at h1
  simp at h1

end CCValidator
